import Mathlib

/-!
# SimpleIoT rule engine: embedding of `db/rules.go`

The rule evaluation code (`ruleProcessPoints`, `ruleRunActions`) talks to the
outside world through NATS sends, a node lookup, a protobuf encoder, a UUID
source, the wall clock and the process log.  The embedding makes these explicit:
every externally visible call is appended to a chronological trace of `Event`s,
and every answer of the outside world is read from an `Env` whose oracles may
depend on the whole trace so far.
-/

set_option linter.dupNamespace false

namespace SimpleIot

/-! ## Values -/

/-- Go `float64` values as far as the comparison operators `<`, `>`, `==`, `!=`
can tell them apart: NaN, the two infinities, and the finite values (every finite
`float64` is a rational number; `+0` and `-0` compare equal and are both `fin 0`). -/
inductive F64 where
  | nan
  | ninf
  | fin (q : ℚ)
  | pinf
  deriving DecidableEq

namespace F64

/-- Go `a < b` on `float64` (IEEE 754: false as soon as one side is NaN). -/
def lt : F64 → F64 → Bool
  | nan, _ => false
  | _, nan => false
  | ninf, ninf => false
  | ninf, _ => true
  | fin _, ninf => false
  | fin a, fin b => decide (a < b)
  | fin _, pinf => true
  | pinf, _ => false

/-- Go `a > b` on `float64`. -/
def gt (a b : F64) : Bool := lt b a

/-- Go `a == b` on `float64` (NaN is equal to nothing, itself included). -/
def eq : F64 → F64 → Bool
  | nan, _ => false
  | _, nan => false
  | a, b => decide (a = b)

/-- Go `a != b` on `float64`: the negation of `==`. -/
def ne (a b : F64) : Bool := !(eq a b)

/-- The constant `0`. -/
def zero : F64 := fin 0

/-- The constant `1`. -/
def one : F64 := fin 1

end F64

/-- Go `time.Time`, as a clock reading. -/
abbrev Time := Nat

/-- Modelled from the spec: the value-type constants `data.PointValueNumber`,
`data.PointValueText` and `data.PointValueOnOff` are declared outside src/; they are
distinct string constants (they label the cases of one `switch`), so the field is an
enumeration of them, with `other s` for every other string. -/
inductive ValueType where
  | number
  | text
  | onOff
  | other (s : String)
  deriving DecidableEq

/-- Modelled from the spec: the operator constants `data.PointValueGreaterThan`,
`data.PointValueLessThan`, `data.PointValueEqual`, `data.PointValueNotEqual` and
`data.PointValueContains` are declared outside src/; `other s` is every other string. -/
inductive Operator where
  | greaterThan
  | lessThan
  | equal
  | notEqual
  | contains
  | other (s : String)
  deriving DecidableEq

/-- Modelled from the spec: the action constants `data.PointValueActionSetValue` and
`data.PointValueActionNotify` are declared outside src/; `other s` is every other
string. -/
inductive ActionKind where
  | setValue
  | notify
  | other (s : String)
  deriving DecidableEq

/-- Modelled from the spec: `data.PointTypeActive`, the point type of the `Active`
writes, is declared outside src/. -/
def PointTypeActive : String := "active"

/-- Modelled from the spec: `data.BoolToFloat` is declared outside src/; an `Active`
write carries `1` for true and `0` for false. -/
def BoolToFloat (v : Bool) : F64 := if v then F64.one else F64.zero

/-! ## Data model -/

/-- The fields of `data.Point` that `db/rules.go` reads or writes.  `Index` is the
value of `int(p.Index)`. -/
structure Point where
  ID : String := ""
  Type_ : String := ""
  Index : Int := 0
  Time : Time := 0
  Value : F64 := F64.zero
  Text : String := ""
  deriving DecidableEq

/-- The fields of `data.Condition` read by `ruleProcessPoints`. -/
structure Condition where
  ID : String := ""
  NodeID : String := ""
  PointID : String := ""
  PointType : String := ""
  PointIndex : Int := -1
  PointValueType : ValueType := ValueType.number
  Operator : Operator := Operator.greaterThan
  PointValue : F64 := F64.zero
  PointTextValue : String := ""
  Active : Bool := false
  deriving DecidableEq

/-- The fields of `data.Action` read by `ruleRunActions`. -/
structure Action where
  ID : String := ""
  NodeID : String := ""
  Action : ActionKind := ActionKind.setValue
  PointType : String := ""
  PointValue : F64 := F64.zero
  PointTextValue : String := ""
  deriving DecidableEq

/-- The fields of `data.Rule` read by `db/rules.go`. -/
structure Rule where
  ID : String := ""
  Description : String := ""
  Active : Bool := false
  Conditions : List Condition := []
  Actions : List Action := []
  deriving DecidableEq

/-- The `data.Notification` built by a `Notify` action. -/
structure Notification where
  ID : String
  SourceNode : String
  Message : String
  deriving DecidableEq

/-- The node returned by `nh.db.node`; `Desc` is what its method `Desc()` returns. -/
structure NodeEdge where
  ID : String
  Desc : String
  deriving DecidableEq

/-! ## Effects -/

/-- One externally visible call. -/
inductive Event where
  /-- The call `nats.SendNodePoint(nc, nodeID, p, false)`. -/
  | send (nodeID : String) (p : Point)
  /-- The call `nh.Nc.Publish(subject, payload)`. -/
  | publish (subject : String) (payload : List Nat)
  /-- The call `log.Println(args...)`. -/
  | log (args : List String)
  deriving DecidableEq

/-- The answers of the outside world.  Each oracle sees the trace of the calls made
before it, so an answer may depend on everything that happened earlier. -/
structure Env where
  /-- The result of `time.Now()`. -/
  now : List Event → Time
  /-- The error returned by `nats.SendNodePoint` (`none` is `nil`). -/
  sendNodePoint : List Event → String → Point → Option String
  /-- The result of `nh.db.node(id)`. -/
  node : List Event → String → Except String NodeEdge
  /-- The result of `uuid.New().String()`. -/
  newUUID : List Event → String
  /-- The result of `n.ToPb()`. -/
  toPb : Notification → Except String (List Nat)
  /-- The error returned by `nh.Nc.Publish`. -/
  publishErr : List Event → String → List Nat → Option String

/-- The points sent to nodes, in order, with their addressee. -/
def sends : List Event → List (String × Point)
  | [] => []
  | Event.send id p :: es => (id, p) :: sends es
  | _ :: es => sends es

/-- A point with its `Time` (the wall clock at the moment of the write) erased. -/
def Point.untimed (p : Point) : Point := { p with Time := 0 }

/-- The writes of a trace: addressee and point sent, in order, times erased. -/
def writes (tr : List Event) : List (String × Point) :=
  (sends tr).map (fun w => (w.1, w.2.untimed))

/-- The points written to node `id`, in order, times erased. -/
def writesTo (id : String) (tr : List Event) : List Point :=
  ((writes tr).filter (fun w => w.1 == id)).map (fun w => w.2)

/-- The statement pair `err := nats.SendNodePoint(nc, id, p, false)` and
`if err != nil { log.Println(msg, err) }`: the send, then the log line when it failed. -/
def sendLogged (env : Env) (id : String) (p : Point) (msg : String)
    (tr : List Event) : List Event :=
  match env.sendNodePoint tr id p with
  | none => tr ++ [Event.send id p]
  | some err => tr ++ [Event.send id p, Event.log [msg, err]]

/-! ## `ruleProcessPoints` -/

/-- The four `continue` guards at the head of the condition loop: true when none of
them skips the condition. -/
def condMatches (c : Condition) (nodeID : String) (p : Point) : Bool :=
  if c.NodeID != "" && c.NodeID != nodeID then false
  else if c.PointID != "" && c.PointID != p.ID then false
  else if c.PointType != "" && c.PointType != p.Type_ then false
  else if c.PointIndex != -1 && c.PointIndex != p.Index then false
  else true

/-- The value of the local `active` after the `switch c.PointValueType`
(`var active bool` starts out false). -/
def condActive (c : Condition) (p : Point) : Bool :=
  match c.PointValueType with
  | ValueType.number =>
    match c.Operator with
    | Operator.greaterThan => F64.gt p.Value c.PointValue
    | Operator.lessThan => F64.lt p.Value c.PointValue
    | Operator.equal => F64.eq p.Value c.PointValue
    | Operator.notEqual => F64.ne p.Value c.PointValue
    | _ => false
  | ValueType.text =>
    match c.Operator with
    | Operator.equal => false
    | Operator.notEqual => false
    | Operator.contains => false
    | _ => false
  | ValueType.onOff =>
    let condValue := F64.ne c.PointValue F64.zero
    let pointValue := F64.ne p.Value F64.zero
    condValue == pointValue
  | ValueType.other _ => false

/-- The locals of one iteration of the outer loop, and the trace. -/
structure LoopState where
  allActive : Bool
  pointProcessed : Bool
  trace : List Event
  deriving DecidableEq

/-- The `Active` point written to a condition or to the rule. -/
def activePoint (env : Env) (tr : List Event) (active : Bool) : Point :=
  { Type_ := PointTypeActive, Time := env.now tr, Value := BoolToFloat active }

/-- The body of `for _, c := range r.Conditions`. -/
def condStep (env : Env) (nodeID : String) (p : Point) (st : LoopState)
    (c : Condition) : LoopState :=
  if condMatches c nodeID p then
    let active := condActive c p
    { allActive := if !active then false else st.allActive
      pointProcessed := true
      trace :=
        if active != c.Active then
          sendLogged env c.ID (activePoint env st.trace active)
            "Rule error sending point: " st.trace
        else st.trace }
  else st

/-- The condition loop for one point, from the state `st`. -/
def condLoop (env : Env) (nodeID : String) (p : Point) (conds : List Condition)
    (st : LoopState) : LoopState :=
  conds.foldl (condStep env nodeID p) st

/-- The body of `for _, p := range points` up to (not including) the final
`if pointProcessed && allActive { return true, nil }`. -/
def pointStep (env : Env) (r : Rule) (nodeID : String) (p : Point)
    (tr : List Event) : LoopState :=
  let st := condLoop env nodeID p r.Conditions
    { allActive := true, pointProcessed := false, trace := tr }
  if st.pointProcessed then
    if st.allActive != r.Active then
      { st with trace := sendLogged env r.ID (activePoint env st.trace st.allActive)
                  "Rule error sending point: " st.trace }
    else st
  else st

/-- The function `ruleProcessPoints`: the returned `(bool, error)` and the trace after the call,
for a call made when the trace was `tr`. -/
def ruleProcessPoints (env : Env) (r : Rule) (nodeID : String) :
    List Point → List Event → (Bool × Option String) × List Event
  | [], tr => ((false, none), tr)
  | p :: ps, tr =>
    let st := pointStep env r nodeID p tr
    if st.pointProcessed && st.allActive then ((true, none), st.trace)
    else ruleProcessPoints env r nodeID ps st.trace

/-! ## `ruleRunActions` -/

/-- The loop `for _, a := range r.Actions` of `ruleRunActions`, over the actions still
to run; the result is the returned `error` (`none` is `nil`) and the trace. -/
def runActions (env : Env) (r : Rule) (triggerNode : String) :
    List Action → List Event → Option String × List Event
  | [], tr => (none, tr)
  | a :: as, tr =>
    match a.Action with
    | ActionKind.setValue =>
      let tr1 :=
        if a.NodeID == "" then
          tr ++ [Event.log ["Error, node action nodeID must be set, action id: ", a.ID]]
        else tr
      let p : Point :=
        { Time := env.now tr1, Type_ := a.PointType, Value := a.PointValue,
          Text := a.PointTextValue }
      runActions env r triggerNode as
        (sendLogged env a.NodeID p "Error sending rule action point: " tr1)
    | ActionKind.notify =>
      match env.node tr triggerNode with
      | Except.error err => (some err, tr)
      | Except.ok node =>
        let triggerNodeDesc := node.Desc
        let n : Notification :=
          { ID := env.newUUID tr, SourceNode := a.NodeID,
            Message := r.Description ++ " fired at " ++ triggerNodeDesc }
        match env.toPb n with
        | Except.error err => (some err, tr)
        | Except.ok d =>
          let subject := "node." ++ r.ID ++ ".not"
          match env.publishErr tr subject d with
          | some err => (some err, tr ++ [Event.publish subject d])
          | none => runActions env r triggerNode as (tr ++ [Event.publish subject d])
    | ActionKind.other s =>
      runActions env r triggerNode as (tr ++ [Event.log ["Uknown rule action: ", s]])

/-- The method `ruleRunActions`: the returned `error` and the trace after the call. -/
def ruleRunActions (env : Env) (r : Rule) (triggerNode : String)
    (tr : List Event) : Option String × List Event :=
  runActions env r triggerNode r.Actions tr

/-! ## Vocabulary of the specification -/

/-- The `Active` point of value `b`, time erased. -/
def activeWrite (b : Bool) : Point :=
  { Type_ := PointTypeActive, Value := BoolToFloat b }

/-- Scope matching as the specification words it: `NodeID` empty-or-equal, `PointType`
empty-or-equal, `PointIndex` `-1`-or-equal. -/
def scopeSpec (c : Condition) (nodeID : String) (p : Point) : Prop :=
  (c.NodeID = "" ∨ c.NodeID = nodeID) ∧ (c.PointType = "" ∨ c.PointType = p.Type_) ∧
    (c.PointIndex = -1 ∨ c.PointIndex = p.Index)

/-- Scope matching with the point ID as a fourth criterion. -/
def scopeFull (c : Condition) (nodeID : String) (p : Point) : Prop :=
  (c.NodeID = "" ∨ c.NodeID = nodeID) ∧ (c.PointID = "" ∨ c.PointID = p.ID) ∧
    (c.PointType = "" ∨ c.PointType = p.Type_) ∧
    (c.PointIndex = -1 ∨ c.PointIndex = p.Index)

instance (c : Condition) (nodeID : String) (p : Point) : Decidable (scopeSpec c nodeID p) :=
  inferInstanceAs (Decidable (_ ∧ _))

instance (c : Condition) (nodeID : String) (p : Point) : Decidable (scopeFull c nodeID p) :=
  inferInstanceAs (Decidable (_ ∧ _))

/-- The conditions of `r` touched by the point. -/
def touched (r : Rule) (nodeID : String) (p : Point) : List Condition :=
  r.Conditions.filter (fun c => condMatches c nodeID p)

/-- The logical AND of the recomputed booleans of the touched conditions. -/
def touchedAnd (r : Rule) (nodeID : String) (p : Point) : Bool :=
  (touched r nodeID p).all (fun c => condActive c p)

/-- A point is firing when it matches at least one condition and every condition it
matches evaluates true. -/
def firing (r : Rule) (nodeID : String) (p : Point) : Bool :=
  !(touched r nodeID p).isEmpty && touchedAnd r nodeID p

/-- Node IDs are unique: no two conditions of the rule share an ID, and none has the
ID of the rule. -/
def Rule.distinctIDs (r : Rule) : Prop :=
  (r.Conditions.map Condition.ID).Nodup ∧ r.ID ∉ r.Conditions.map Condition.ID

instance (r : Rule) : Decidable r.distinctIDs :=
  inferInstanceAs (Decidable (_ ∧ _))

/-- The write that the iteration for condition `c` sends for the point `p`, if any. -/
def condWrite (nodeID : String) (p : Point) (c : Condition) : List (String × Point) :=
  if condMatches c nodeID p && (condActive c p != c.Active) then
    [(c.ID, activeWrite (condActive c p))]
  else []

/-- The writes that the condition loop sends for the point `p`. -/
def condWrites (nodeID : String) (p : Point) : List Condition → List (String × Point)
  | [] => []
  | c :: cs => condWrite nodeID p c ++ condWrites nodeID p cs

/-- The rule-level write for the point `p`, if any. -/
def ruleWrite (r : Rule) (nodeID : String) (p : Point) : List (String × Point) :=
  if !(touched r nodeID p).isEmpty && (touchedAnd r nodeID p != r.Active) then
    [(r.ID, activeWrite (touchedAnd r nodeID p))]
  else []

/-- The writes of one evaluated point. -/
def pointWrites (r : Rule) (nodeID : String) (p : Point) : List (String × Point) :=
  condWrites nodeID p r.Conditions ++ ruleWrite r nodeID p

/-- The writes of a batch: those of every point up to and including the first firing
one. -/
def batchWrites (r : Rule) (nodeID : String) : List Point → List (String × Point)
  | [] => []
  | p :: ps =>
    pointWrites r nodeID p ++ (if firing r nodeID p then [] else batchWrites r nodeID ps)

/-- Condition evaluation as the specification words it: the four numeric operators
against `Value`, and for OnOff the equality of `(Value ≠ 0)` between condition and
point whatever the operator; `none` where these two sentences say nothing. -/
def condActiveSpec (c : Condition) (p : Point) : Option Bool :=
  if c.PointValueType = ValueType.number then
    if c.Operator = Operator.greaterThan then some (F64.gt p.Value c.PointValue)
    else if c.Operator = Operator.lessThan then some (F64.lt p.Value c.PointValue)
    else if c.Operator = Operator.equal then some (F64.eq p.Value c.PointValue)
    else if c.Operator = Operator.notEqual then some (F64.ne p.Value c.PointValue)
    else none
  else if c.PointValueType = ValueType.onOff then
    some ((F64.ne c.PointValue F64.zero) == (F64.ne p.Value F64.zero))
  else none

/-- The condition of the end-to-end scenario: `temp > 30`, any index, inactive. -/
def scenarioCond : Condition :=
  { ID := "cond", PointType := "temp", PointValueType := ValueType.number,
    Operator := Operator.greaterThan, PointValue := F64.fin 30, PointIndex := -1,
    Active := false }

/-- The action of the end-to-end scenario: set `alarm = 1` on the target node. -/
def scenarioAction : Action :=
  { ID := "action", NodeID := "target", Action := ActionKind.setValue,
    PointType := "alarm", PointValue := F64.fin 1 }

/-- The rule of the end-to-end scenario. -/
def scenarioRule : Rule :=
  { ID := "rule", Description := "too hot", Active := false,
    Conditions := [scenarioCond], Actions := [scenarioAction] }

/-- A `temp` reading. -/
def temp (v : ℚ) : Point := { Type_ := "temp", Value := F64.fin v }

/-- A condition that names the point it listens to. -/
def pointIDCond : Condition :=
  { ID := "cond", PointID := "sensorA", PointValueType := ValueType.number,
    Operator := Operator.greaterThan, PointValue := F64.fin 30 }

/-- A humidity reading, which the scenario condition does not listen to. -/
def humidityPoint : Point := { Type_ := "humidity", Value := F64.fin 80 }

/-- A reading of another sensor. -/
def sensorBPoint : Point := { ID := "sensorB", Type_ := "temp", Value := F64.fin 35 }

/-- The scenario rule once it is active: rule and condition latched true. -/
def activeRule : Rule :=
  { scenarioRule with Active := true,
                      Conditions := [{ scenarioCond with Active := true }] }

/-- The writes that a call added: those of the trace after it, less those of the
trace before it. -/
def newWrites (before after : List Event) : List (String × Point) :=
  (writes after).drop (writes before).length

/-- Modelled from the spec: the store round trip between two submissions ("apply every
emitted Active write to the rule/condition before the next submission") is outside
src/.  An `Active` write of value `1` sets the latch of the rule or condition it is
addressed to, any other `Active` value clears it. -/
def applyWrite (r : Rule) (w : String × Point) : Rule :=
  if w.2.Type_ = PointTypeActive then
    { r with
      Active := if w.1 = r.ID then F64.eq w.2.Value F64.one else r.Active
      Conditions := r.Conditions.map (fun c =>
        if w.1 = c.ID then { c with Active := F64.eq w.2.Value F64.one } else c) }
  else r

/-- Apply the writes in order. -/
def applyWrites (r : Rule) (ws : List (String × Point)) : Rule :=
  ws.foldl applyWrite r

/-- The point that a SetValue action sends, time erased. -/
def actionWrite (a : Action) : String × Point :=
  (a.NodeID, { Type_ := a.PointType, Value := a.PointValue, Text := a.PointTextValue })

/-- A Notify action. -/
def notifyAction : Action :=
  { ID := "notify", NodeID := "node", Action := ActionKind.notify }

/-- The scenario rule with a Notify action ahead of its SetValue action. -/
def notifyFirstRule : Rule :=
  { scenarioRule with Actions := [notifyAction, scenarioAction] }

/-- An outside world in which the node lookup fails and everything else succeeds. -/
def lookupFailsEnv : Env where
  now := fun _ => 0
  sendNodePoint := fun _ _ _ => none
  node := fun _ _ => Except.error "node not found"
  newUUID := fun _ => "uuid"
  toPb := fun _ => Except.ok []
  publishErr := fun _ _ _ => none

/-- An outside world in which every send fails. -/
def sendFailsEnv : Env where
  now := fun _ => 0
  sendNodePoint := fun _ _ _ => some "timeout"
  node := fun _ id => Except.ok { ID := id, Desc := id }
  newUUID := fun _ => "uuid"
  toPb := fun _ => Except.ok []
  publishErr := fun _ _ _ => none

/-- A Text condition on the point type `name`, latched active. -/
def textCond : Condition :=
  { ID := "textCond", PointType := "name", PointValueType := ValueType.text,
    Operator := Operator.equal, PointTextValue := "pump", Active := true }

/-- A rule with the single condition `textCond`. -/
def textRule : Rule :=
  { ID := "textRule", Active := true, Conditions := [textCond] }

/-- A point whose text equals the text of `textCond`. -/
def namePoint : Point := { Type_ := "name", Text := "pump" }

/-- An outside world in which every call succeeds and the clock stands still. -/
def quietEnv : Env where
  now := fun _ => 0
  sendNodePoint := fun _ _ _ => none
  node := fun _ id => Except.ok { ID := id, Desc := id }
  newUUID := fun _ => "uuid"
  toPb := fun _ => Except.ok []
  publishErr := fun _ _ _ => none

/-! ## Go standard library: byte order, IP addresses

`net.ParseIP`, `net.IP.To4`, `net.IP.String`, `binary.ByteOrder` and `bits.OnesCount32`
belong to the Go standard library.  A Go `net.IP` is a byte slice: here a `List Nat` of
bytes, the nil slice being `[]`.  The dotted-decimal branch of `net.ParseIP` and the
printing of four-byte addresses are modelled in full; the IPv6 branch of `net.ParseIP` is
a parameter `parseIPv6` of everything that parses an address. -/

/-- The two `binary.ByteOrder` values the code uses. -/
inductive ByteOrder where
  | bigEndian
  | littleEndian
  deriving DecidableEq

/-- The four bytes that `order.PutUint32(buf, n)` stores for a `uint32` value `n`. -/
def ByteOrder.PutUint32 (order : ByteOrder) (n : Nat) : List Nat :=
  match order with
  | ByteOrder.bigEndian => [n / 16777216 % 256, n / 65536 % 256, n / 256 % 256, n % 256]
  | ByteOrder.littleEndian => [n % 256, n / 256 % 256, n / 65536 % 256, n / 16777216 % 256]

/-- The value `order.Uint32(b)` of a four-byte slice (the callers check the length). -/
def ByteOrder.Uint32 (order : ByteOrder) : List Nat → Nat
  | [b0, b1, b2, b3] =>
    match order with
    | ByteOrder.bigEndian => b0 * 16777216 + b1 * 65536 + b2 * 256 + b3
    | ByteOrder.littleEndian => b3 * 16777216 + b2 * 65536 + b1 * 256 + b0
  | _ => 0

/-- The number of one bits of a `uint32` value: `bits.OnesCount32`. -/
def OnesCount32 (x : Nat) : Nat :=
  ((List.range 32).filter (fun i => x.testBit i)).length

/-- The decimal digit `d` as a character. -/
def digitChar (d : Nat) : Char := Char.ofNat (48 + d)

/-- The decimal form of a byte, without leading zeros. -/
def fmtByte (b : Nat) : List Char :=
  if b < 10 then [digitChar b]
  else if b < 100 then [digitChar (b / 10), digitChar (b % 10)]
  else [digitChar (b / 100), digitChar (b / 10 % 10), digitChar (b % 10)]

/-- The result of `net.IP(buf).String()` for a four-byte slice: dotted decimal. -/
def ipString4 (b0 b1 b2 b3 : Nat) : String :=
  String.mk (fmtByte b0 ++ '.' :: (fmtByte b1 ++ '.' :: (fmtByte b2 ++ '.' :: fmtByte b3)))

/-- The fields of a string between its dots. -/
def splitOnDot : List Char → List (List Char)
  | [] => [[]]
  | c :: cs =>
    if c = '.' then [] :: splitOnDot cs
    else
      match splitOnDot cs with
      | f :: fs => (c :: f) :: fs
      | [] => [[c]]

/-- One field of a dotted-decimal address: at least one character, decimal digits only,
no leading zero in front of another digit, value at most 255. -/
def parseOctet (f : List Char) : Option Nat :=
  if f.isEmpty then none
  else if !f.all Char.isDigit then none
  else if decide (1 < f.length) && f.head? == some '0' then none
  else
    let val := f.foldl (fun a c => a * 10 + (c.toNat - 48)) 0
    if 255 < val then none else some val

/-- The dotted-decimal branch of `net.ParseIP` (as of Go 1.17, which rejects octets with a
leading zero): exactly four fields, each a valid octet; the four bytes, or `[]` for nil. -/
def parseIPv4 (s : List Char) : List Nat :=
  match (splitOnDot s).map parseOctet with
  | [some a, some b, some c, some d] => [a, b, c, d]
  | _ => []

/-- The separator that decides how `net.ParseIP` reads a string. -/
inductive Separator where
  | dot
  | colon
  deriving DecidableEq

/-- The first `.` or `:` of the string. -/
def firstSeparator : List Char → Option Separator
  | [] => none
  | c :: cs =>
    if c = '.' then some Separator.dot
    else if c = ':' then some Separator.colon
    else firstSeparator cs

/-- The twelve bytes in front of an IPv4 address in its 16-byte form. -/
def v4InV6Prefix : List Nat := [0, 0, 0, 0, 0, 0, 0, 0, 0, 0, 255, 255]

/-- The function `net.ParseIP`: the 16-byte form of the address, or `[]` for nil.  A string
whose first separator is a dot is read as dotted decimal, one whose first separator is a
colon is handed to `parseIPv6`, whose answer counts when it is 16 bytes long. -/
def ParseIP (parseIPv6 : String → List Nat) (s : String) : List Nat :=
  match firstSeparator s.toList with
  | some Separator.dot =>
    match parseIPv4 s.toList with
    | [a, b, c, d] => v4InV6Prefix ++ [a, b, c, d]
    | _ => []
  | some Separator.colon =>
    let ip := parseIPv6 s
    if ip.length == 16 && ip.all (fun b => decide (b < 256)) then ip else []
  | none => []

/-- The method `net.IP.To4`: the four-byte form of an IPv4 address, or `[]` for nil. -/
def To4 (ip : List Nat) : List Nat :=
  if ip.length == 4 then ip
  else if ip.length == 16 && ip.take 12 == v4InV6Prefix then ip.drop 12
  else []

/-- The method `net.IP.To16`: the 16-byte form, or `[]` for nil. -/
def To16 (ip : List Nat) : List Nat :=
  if ip.length == 4 then v4InV6Prefix ++ ip
  else if ip.length == 16 then ip
  else []

/-! ## `client/network-manager-conn.go`: addresses and netmasks -/

/-- The function `IPv4AddressUint32`. -/
def IPv4AddressUint32 (n : Nat) (order : ByteOrder) : String :=
  match order.PutUint32 n with
  | [b0, b1, b2, b3] => ipString4 b0 b1 b2 b3
  | _ => ""

/-- The method `IPv4Address.Uint32`. -/
def IPv4Address.Uint32 (parseIPv6 : String → List Nat) (addr : String)
    (order : ByteOrder) : Nat :=
  let ip := To4 (ParseIP parseIPv6 addr)
  if ip.length != 4 then 0 else order.Uint32 ip

/-- The method `IPv4Address.Valid`. -/
def IPv4Address.Valid (parseIPv6 : String → List Nat) (addr : String) : Bool :=
  addr.toList.contains '.' && To4 (ParseIP parseIPv6 addr) != []

/-- The function `IPv4NetmaskPrefix`, for a `uint8` prefix: `32 - prefix` is taken in
`uint8` and the shifted value in `uint32`. -/
def IPv4NetmaskPrefix (pfx : Nat) : String :=
  let mask := (4294967295 <<< ((32 + 256 - pfx % 256) % 256)) % 4294967296
  IPv4AddressUint32 mask ByteOrder.bigEndian

/-- The method `IPv4Netmask.Prefix`. -/
def IPv4Netmask.Prefix (parseIPv6 : String → List Nat) (str : String) : Nat :=
  OnesCount32 (IPv4Address.Uint32 parseIPv6 str ByteOrder.bigEndian)

/-- The method `IPv4Netmask.Valid`; `^mask` is the complement within 32 bits. -/
def IPv4Netmask.Valid (parseIPv6 : String → List Nat) (str : String) : Bool :=
  if !IPv4Address.Valid parseIPv6 str then false
  else
    let mask := IPv4Address.Uint32 parseIPv6 str ByteOrder.bigEndian
    decide (mask &&& ((4294967295 ^^^ mask) >>> 1) ≤ 0)

/-- The method `IPv6Address.Valid`. -/
def IPv6Address.Valid (parseIPv6 : String → List Nat) (addr : String) : Bool :=
  addr.toList.contains ':' && To16 (ParseIP parseIPv6 addr) != []

/-- The method `IPv6Address.Bytes`. -/
def IPv6Address.Bytes (parseIPv6 : String → List Nat) (addr : String) : List Nat :=
  To16 (ParseIP parseIPv6 addr)

/-- An IPv6 parser that accepts nothing. -/
def noIPv6 : String → List Nat := fun _ => []

/-- An IPv6 branch that knows a single address: like Go, it reads `::ffff:102:304` as the
IPv4-mapped address `1.2.3.4`. -/
def mappedOnlyIPv6 : String → List Nat :=
  fun s => if s = "::ffff:102:304" then v4InV6Prefix ++ [1, 2, 3, 4] else []

/-! ## `client/network-manager-conn.go`: connections and their D-Bus settings

A Go map has no order.  The maps below are association lists that hold their entries in
the order the code writes them (no key is written twice); two settings are the same
settings when they have the same sections and every key looks up the same value. -/

/-- A value inside one `address-data` map: the address string or the prefix length. -/
inductive AddressValue where
  | str (s : String)
  | uint32 (n : Nat)
  | uint8 (n : Nat)
  deriving DecidableEq

/-- A value stored in a D-Bus settings map (`any`), of the kinds the code stores. -/
inductive DBusValue where
  | str (s : String)
  | bool (b : Bool)
  | int32 (n : Int)
  | bytes (bs : List Nat)
  | uint32s (ns : List Nat)
  | byteArrays (bss : List (List Nat))
  /-- The value of `address-data`: a slice of maps from key to address or prefix length. -/
  | addressData (ms : List (List (String × AddressValue)))
  deriving DecidableEq

/-- One section of the settings: `map[string]any`. -/
abbrev DBusMap := List (String × DBusValue)

/-- The Go type `nm.ConnectionSettings`: `map[string]map[string]any`. -/
abbrev ConnectionSettings := List (String × DBusMap)

/-- The Go struct `WiFiConfig`. -/
structure WiFiConfig where
  SSID : String := ""
  KeyManagement : String := ""
  PSK : String := ""
  deriving DecidableEq

/-- The Go struct `IPv4Config`; addresses and netmask are strings. -/
structure IPv4Config where
  StaticIP : Bool := false
  Address : String := ""
  Netmask : String := ""
  Gateway : String := ""
  DNSServer1 : String := ""
  DNSServer2 : String := ""
  deriving DecidableEq

/-- The Go struct `IPv6Config`; `Prefix` is a `uint8`. -/
structure IPv6Config where
  StaticIP : Bool := false
  Address : String := ""
  Prefix : Nat := 0
  Gateway : String := ""
  DNSServer1 : String := ""
  DNSServer2 : String := ""
  deriving DecidableEq

/-- The Go struct `NetworkManagerConn`, fields in declaration order. -/
structure NetworkManagerConn where
  ID : String := ""
  Parent : String := ""
  Description : String := ""
  Type_ : String := ""
  Managed : Bool := false
  AutoConnect : Bool := false
  AutoConnectPriority : Int := 0
  InterfaceName : String := ""
  LastActivated : Nat := 0
  IPv4Config : IPv4Config := {}
  IPv6Config : IPv6Config := {}
  WiFiConfig : WiFiConfig := {}
  Error : String := ""
  deriving DecidableEq

/-- The method `IPv4Config.Method`. -/
def IPv4Config.Method (parseIPv6 : String → List Nat) (c : IPv4Config) : String :=
  if c.StaticIP && IPv4Address.Valid parseIPv6 c.Address &&
      IPv4Netmask.Valid parseIPv6 c.Netmask && IPv4Address.Valid parseIPv6 c.Gateway then
    "manual"
  else "auto"

/-- The method `IPv4Config.Equal`; `reflect.DeepEqual` on two such structs is equality of
all six fields. -/
def IPv4Config.Equal (parseIPv6 : String → List Nat) (c c2 : IPv4Config) : Bool :=
  if c.Method parseIPv6 == "auto" && c2.Method parseIPv6 == "auto" then true
  else decide (c = c2)

/-- The method `IPv4Config.DBus`. -/
def IPv4Config.DBus (parseIPv6 : String → List Nat) (c : IPv4Config) : DBusMap :=
  let settings : DBusMap := [("method", DBusValue.str (c.Method parseIPv6))]
  if c.Method parseIPv6 == "auto" then settings
  else
    let dns1 : List Nat :=
      if IPv4Address.Valid parseIPv6 c.DNSServer1 then
        [IPv4Address.Uint32 parseIPv6 c.DNSServer1 ByteOrder.littleEndian]
      else []
    let dns : List Nat :=
      if IPv4Address.Valid parseIPv6 c.DNSServer2 then
        dns1 ++ [IPv4Address.Uint32 parseIPv6 c.DNSServer2 ByteOrder.littleEndian]
      else dns1
    settings ++
      [("address-data", DBusValue.addressData
          [[("address", AddressValue.str c.Address),
            ("prefix", AddressValue.uint32 (IPv4Netmask.Prefix parseIPv6 c.Netmask))]]),
       ("gateway", DBusValue.str c.Gateway),
       ("dns", DBusValue.uint32s dns)]

/-- The method `IPv6Config.Method`. -/
def IPv6Config.Method (parseIPv6 : String → List Nat) (c : IPv6Config) : String :=
  if c.StaticIP && IPv6Address.Valid parseIPv6 c.Address &&
      IPv6Address.Valid parseIPv6 c.Gateway then
    "manual"
  else "auto"

/-- The method `IPv6Config.Equal`. -/
def IPv6Config.Equal (parseIPv6 : String → List Nat) (c c2 : IPv6Config) : Bool :=
  if c.Method parseIPv6 == "auto" && c2.Method parseIPv6 == "auto" then true
  else decide (c = c2)

/-- The method `IPv6Config.DBus`. -/
def IPv6Config.DBus (parseIPv6 : String → List Nat) (c : IPv6Config) : DBusMap :=
  let settings : DBusMap := [("method", DBusValue.str (c.Method parseIPv6))]
  if c.Method parseIPv6 == "auto" then settings
  else
    let dns1 : List (List Nat) :=
      if IPv6Address.Valid parseIPv6 c.DNSServer1 then
        [IPv6Address.Bytes parseIPv6 c.DNSServer1]
      else []
    let dns : List (List Nat) :=
      if c.DNSServer2 != "" then dns1 ++ [IPv6Address.Bytes parseIPv6 c.DNSServer2]
      else dns1
    settings ++
      [("address-data", DBusValue.addressData
          [[("address", AddressValue.str c.Address),
            ("prefix", AddressValue.uint8 c.Prefix)]]),
       ("gateway", DBusValue.str c.Gateway),
       ("dns", DBusValue.byteArrays dns)]

/-- The bytes of a Go string: `[]byte(s)`. -/
def stringBytes (s : String) : List Nat := s.toUTF8.toList.map (fun b => b.toNat)

/-- The method `NetworkManagerConn.DBus`; `none` is the nil map. -/
def NetworkManagerConn.DBus (parseIPv6 : String → List Nat) (c : NetworkManagerConn) :
    Option ConnectionSettings :=
  let sc : DBusMap :=
    [("uuid", DBusValue.str c.ID),
     ("id", DBusValue.str c.Description),
     ("type", DBusValue.str c.Type_),
     ("autoconnect", DBusValue.bool c.AutoConnect),
     ("autoconnect-priority", DBusValue.int32 c.AutoConnectPriority)]
  let sc : DBusMap :=
    if c.InterfaceName != "" then sc ++ [("interface-name", DBusValue.str c.InterfaceName)]
    else sc
  let settings : ConnectionSettings :=
    [("connection", sc),
     ("ipv4", c.IPv4Config.DBus parseIPv6),
     ("ipv6", c.IPv6Config.DBus parseIPv6)]
  if c.Type_ == "802-11-wireless" then
    let settings := settings ++
      [("802-11-wireless", [("ssid", DBusValue.bytes (stringBytes c.WiFiConfig.SSID))])]
    if c.WiFiConfig.KeyManagement != "" then
      let wiFiSecurity : DBusMap := [("key-mgmt", DBusValue.str c.WiFiConfig.KeyManagement)]
      let wiFiSecurity : DBusMap :=
        if c.Managed then wiFiSecurity ++ [("psk", DBusValue.str c.WiFiConfig.PSK)]
        else wiFiSecurity
      some (settings ++ [("802-11-wireless-security", wiFiSecurity)])
    else some settings
  else some settings

/-- The method `NetworkManagerConn.Equal`: the reflection loop visits the fields in
declaration order, skips `Parent`, `Managed`, `LastActivated`, `IPv4Config`, `IPv6Config`
and `Error`, and returns false at the first other field that differs. -/
def NetworkManagerConn.Equal (parseIPv6 : String → List Nat) (c c2 : NetworkManagerConn) :
    Bool :=
  if c.ID != c2.ID then false
  else if c.Description != c2.Description then false
  else if c.Type_ != c2.Type_ then false
  else if c.AutoConnect != c2.AutoConnect then false
  else if c.AutoConnectPriority != c2.AutoConnectPriority then false
  else if c.InterfaceName != c2.InterfaceName then false
  else if c.WiFiConfig != c2.WiFiConfig then false
  else c.IPv4Config.Equal parseIPv6 c2.IPv4Config && c.IPv6Config.Equal parseIPv6 c2.IPv6Config

/-- The section `sec` of the settings, if present. -/
def lookupSection (s : Option ConnectionSettings) (sec : String) : Option DBusMap :=
  match s with
  | none => none
  | some m => (m.find? (fun e => e.1 == sec)).map (fun e => e.2)

/-- The value under `key` in section `sec` of the settings, if present. -/
def lookupEntry (s : Option ConnectionSettings) (sec key : String) : Option DBusValue :=
  match lookupSection s sec with
  | none => none
  | some m => (m.find? (fun e => e.1 == key)).map (fun e => e.2)

/-- Some section of the settings holds an entry under `key`. -/
def hasEntry (s : Option ConnectionSettings) (key : String) : Bool :=
  match s with
  | none => false
  | some m => m.any (fun sec => sec.2.any (fun e => e.1 == key))

/-- The same settings: both nil or both maps with the same sections, keys and values. -/
def sameSettings (a b : Option ConnectionSettings) : Prop :=
  a.isSome = b.isSome ∧
  ∀ sec : String, (lookupSection a sec).isSome = (lookupSection b sec).isSome ∧
    ∀ key : String, lookupEntry a sec key = lookupEntry b sec key

/-- A managed Wi-Fi connection with a pre-shared key. -/
def managedWiFi : NetworkManagerConn :=
  { ID := "0a1b", Description := "office", Type_ := "802-11-wireless", Managed := true,
    AutoConnect := true,
    WiFiConfig := { SSID := "office", KeyManagement := "wpa-psk", PSK := "secret" } }

/-- The same Wi-Fi connection, not managed. -/
def unmanagedWiFi : NetworkManagerConn := { managedWiFi with Managed := false }

/-- A wired connection created by NetworkManager itself. -/
def wiredConn : NetworkManagerConn :=
  { ID := "7c2d", Description := "Wired connection 1", Type_ := "802-3-ethernet",
    AutoConnect := true }

/-- The same wired connection with a stale SSID left in its Wi-Fi configuration. -/
def wiredConnStaleSSID : NetworkManagerConn :=
  { wiredConn with WiFiConfig := { SSID := "old" } }

/-! ## `client/file-transfer.go`: `SendFile`

The reader, the protobuf encoder and the device are the outside world of `SendFile`.
Every `nc.Request` and every call of the progress callback is appended to a trace of
`FileEvent`s, a request together with the answer it got; the device answers through an
oracle that sees the trace so far. -/

/-- The value of `int32(x)`: wrap-around of a 32-bit signed integer. -/
def wrapInt32 (x : Int) : Int := (x + 2147483648) % 4294967296 - 2147483648

/-- The value of a Go `int` on a 64-bit platform: wrap-around of a 64-bit signed integer. -/
def wrapInt64 (x : Int) : Int :=
  (x + 9223372036854775808) % 18446744073709551616 - 9223372036854775808

/-- The states of a `pb.FileChunk` that the code names, and the zero value. -/
inductive ChunkState where
  | unset
  | error
  | done
  deriving DecidableEq

/-- The fields of `pb.FileChunk` that `SendFile` sets. -/
structure FileChunk where
  Seq : Int := 0
  Data : List Nat := []
  FileName : String := ""
  State : ChunkState := ChunkState.unset
  deriving DecidableEq

/-- A non-nil error of `reader.Read`: `io.EOF` or any other error. -/
inductive ReadError where
  | eof
  | other (msg : String)
  deriving DecidableEq

/-- A reader, by what its `Read` calls return: the bytes `data[:count]` of the calls that
return a nil error, in order, then the bytes and the error of the first call that returns
a non-nil error (after which `SendFile` reads no more). -/
structure Reader where
  reads : List (List Nat) := []
  lastData : List Nat := []
  lastErr : ReadError := ReadError.eof

/-- The result of `proto.Marshal(chunk)`. -/
inductive Marshalled where
  | failed (err : String)
  | bytes (out : List Nat)
  deriving DecidableEq

/-- The result of `nc.Request(subject, out, time.Minute)`: an error (a timeout is one) or
the data of the reply, as a string. -/
inductive Reply where
  | failed (err : String)
  | data (msgS : String)
  deriving DecidableEq

/-- One externally visible call of `SendFile`. -/
inductive FileEvent where
  /-- The call `nc.Request(subject, out, time.Minute)` and what it returned. -/
  | request (subject : String) (out : List Nat) (reply : Reply)
  /-- The call `callback(bytesTx)`. -/
  | progress (bytesTx : Int)
  /-- The call `log.Println(args...)`. -/
  | log (args : List String)
  deriving DecidableEq

/-- The encoder and the device. -/
structure FileEnv where
  /-- The result of `proto.Marshal(chunk)`. -/
  marshal : FileChunk → Marshalled
  /-- The result of `nc.Request(subject, out, time.Minute)`, given the trace so far. -/
  request : List FileEvent → String → List Nat → Reply

/-- The error that `SendFile` returns: the error of `proto.Marshal`, or
`errors.New("Error sending file to device")`. -/
inductive SendError where
  | marshal (err : String)
  | sendFailed
  deriving DecidableEq

/-- The chunk built at the head of the loop body from the sequence number, the file name
and the result of `reader.Read`. -/
def mkChunk (seq : Int) (name : String) (data : List Nat) (err : Option ReadError) :
    FileChunk :=
  { Seq := seq
    Data := data
    FileName := if seq == 0 then name else ""
    State :=
      match err with
      | none => ChunkState.unset
      | some ReadError.eof => ChunkState.done
      | some (ReadError.other _) => ChunkState.error }

/-- The loop `for ; retry < 3; retry++`, with `left = 3 - retry` iterations left: the
value of `retry` after the loop, and the trace. -/
def requestLoop (env : FileEnv) (subject : String) (out : List Nat) :
    Nat → Nat → List FileEvent → Nat × List FileEvent
  | 0, retry, tr => (retry, tr)
  | left + 1, retry, tr =>
    match env.request tr subject out with
    | Reply.failed err =>
      requestLoop env subject out left (retry + 1)
        (tr ++ [FileEvent.request subject out (Reply.failed err),
                FileEvent.log ["Error sending file, retrying: ", toString retry, err]])
    | Reply.data msgS =>
      if msgS != "OK" then
        requestLoop env subject out left (retry + 1)
          (tr ++ [FileEvent.request subject out (Reply.data msgS),
                  FileEvent.log ["Error from device when sending file: ", toString retry,
                    msgS]])
      else (retry, tr ++ [FileEvent.request subject out (Reply.data msgS)])

/-- The part of the loop body from `proto.Marshal` to the test `retry >= 3`: the error to
return, if any, and the trace. -/
def sendChunk (env : FileEnv) (subject : String) (chunk : FileChunk)
    (tr : List FileEvent) : Option SendError × List FileEvent :=
  match env.marshal chunk with
  | Marshalled.failed err => (some (SendError.marshal err), tr)
  | Marshalled.bytes out =>
    let res := requestLoop env subject out 3 0 tr
    if res.1 ≥ 3 then (some SendError.sendFailed, res.2) else (none, res.2)

/-- The loop `for { ... }` of `SendFile`, over the reads still to come, with the current
`seq`, `bytesTx` and trace. -/
def sendLoop (env : FileEnv) (subject name : String) (lastData : List Nat)
    (lastErr : ReadError) :
    List (List Nat) → Int → Int → List FileEvent → Option SendError × List FileEvent
  | [], seq, bytesTx, tr =>
    match sendChunk env subject (mkChunk seq name lastData (some lastErr)) tr with
    | (some e, tr1) => (some e, tr1)
    | (none, tr1) =>
      (none, tr1 ++ [FileEvent.progress (wrapInt64 (bytesTx + lastData.length))])
  | data :: rest, seq, bytesTx, tr =>
    match sendChunk env subject (mkChunk seq name data none) tr with
    | (some e, tr1) => (some e, tr1)
    | (none, tr1) =>
      sendLoop env subject name lastData lastErr rest (wrapInt32 (seq + 1))
        (wrapInt64 (bytesTx + data.length))
        (tr1 ++ [FileEvent.progress (wrapInt64 (bytesTx + data.length))])

/-- The function `SendFile`: the returned error (`none` is nil) and the trace of the call. -/
def SendFile (env : FileEnv) (deviceID : String) (reader : Reader) (name : String) :
    Option SendError × List FileEvent :=
  sendLoop env ("device." ++ deviceID ++ ".file") name reader.lastData reader.lastErr
    reader.reads 0 0 []

/-- The chunks that the loop builds from the reads still to come. -/
def chunksFrom (name : String) (lastData : List Nat) (lastErr : ReadError) :
    List (List Nat) → Int → List FileChunk
  | [], seq => [mkChunk seq name lastData (some lastErr)]
  | data :: rest, seq =>
    mkChunk seq name data none :: chunksFrom name lastData lastErr rest (wrapInt32 (seq + 1))

/-- The chunks of a file, in the order `SendFile` builds them. -/
def chunks (reader : Reader) (name : String) : List FileChunk :=
  chunksFrom name reader.lastData reader.lastErr reader.reads 0

/-- The number of calls of the progress callback in a trace. -/
def progressCount : List FileEvent → Nat
  | [] => 0
  | FileEvent.progress _ :: es => progressCount es + 1
  | _ :: es => progressCount es

/-- The reply is the string `OK`. -/
def replyOK : Reply → Bool
  | Reply.data msgS => msgS == "OK"
  | Reply.failed _ => false

/-- The retry discipline, read off a trace.  The state is `some n` while the current chunk
has had `n` request attempts, none of them answered `OK`, and `none` once it was answered
`OK`.  A request is allowed only in a state `some n` with `n < 3`; the progress callback is
allowed only after an `OK` and moves on to the next chunk.  The result is the state after
the trace, or `none` when the trace breaks the discipline. -/
def attemptDiscipline : Option Nat → List FileEvent → Option (Option Nat)
  | st, [] => some st
  | st, FileEvent.log _ :: es => attemptDiscipline st es
  | none, FileEvent.progress _ :: es => attemptDiscipline (some 0) es
  | some _, FileEvent.progress _ :: _ => none
  | none, FileEvent.request _ _ _ :: _ => none
  | some n, FileEvent.request _ _ reply :: es =>
    if n < 3 then attemptDiscipline (if replyOK reply then none else some (n + 1)) es
    else none

/-- Every request of the trace is sent on `subject` and carries the encoding of the chunk
it belongs to, the chunks being those of `cs` in order and each call of the progress
callback moving on to the next one. -/
def requestsFor (env : FileEnv) (subject : String) :
    List FileChunk → List FileEvent → Bool
  | _, [] => true
  | cs, FileEvent.log _ :: es => requestsFor env subject cs es
  | _ :: cs, FileEvent.progress _ :: es => requestsFor env subject cs es
  | [], FileEvent.progress _ :: _ => false
  | c :: cs, FileEvent.request s out _ :: es =>
    s == subject && env.marshal c == Marshalled.bytes out &&
      requestsFor env subject (c :: cs) es
  | [], FileEvent.request _ _ _ :: _ => false

/-- A device that answers the first two requests with an error and every later one with
`OK`, behind an encoder that writes the sequence number and the data. -/
def flakyDevice : FileEnv where
  marshal := fun c => Marshalled.bytes (c.Seq.toNat :: c.Data)
  request := fun tr _ _ => if tr.length < 4 then Reply.failed "timeout" else Reply.data "OK"

/-- A device that answers every request with `busy`. -/
def busyDevice : FileEnv where
  marshal := fun c => Marshalled.bytes (c.Seq.toNat :: c.Data)
  request := fun _ _ _ => Reply.data "busy"

/-- A file of two reads and an end of file. -/
def twoReads : Reader := { reads := [[1, 2, 3], [4, 5]], lastData := [], lastErr := ReadError.eof }

/-- What a run of the send loop owes for the chunks `cs` it has to send, given the error
`res` it returned and the events `evs` it added to the trace. -/
def SendContract (env : FileEnv) (subject : String) (cs : List FileChunk)
    (res : Option SendError) (evs : List FileEvent) : Prop :=
  requestsFor env subject cs evs = true ∧
  progressCount evs ≤ cs.length ∧
  (res = none ↔ progressCount evs = cs.length) ∧
  attemptDiscipline (some 0) evs
    = some (some (if res = some SendError.sendFailed then 3 else 0)) ∧
  (∀ e, res = some (SendError.marshal e) ↔
    ∃ c, cs[progressCount evs]? = some c ∧ env.marshal c = Marshalled.failed e) ∧
  (res = some SendError.sendFailed →
    ∃ c out, cs[progressCount evs]? = some c ∧ env.marshal c = Marshalled.bytes out)

/-! ## The point store

The store (`db.nodePoints`, `db.getNodes`) is not among the source files; only its tests
are.  It is modelled from section 4.1 of the specification. -/

/-- Modelled from the spec: a stored point `{Type, Key, Time, Value, Text, Origin}`; its
identity within its owner is `(Type, Key)` and `Time` decides a merge. -/
structure StoredPoint where
  Type_ : String := ""
  Key : String := ""
  Time : Nat := 0
  Value : F64 := F64.zero
  Text : String := ""
  Origin : String := ""
  deriving DecidableEq

/-- Modelled from the spec: two points share their `(Type, Key)`. -/
def sameKey (a b : StoredPoint) : Bool := a.Type_ == b.Type_ && a.Key == b.Key

/-- Modelled from the spec: the store, which is outside src/, keeps for every known owner
ID its points, one per `(Type, Key)`. -/
abbrev PointStore := String → Option (List StoredPoint)

/-- Modelled from the spec: the merge of one point into the points of its owner, which is
outside src/.  "Each point is merged independently against the stored point sharing its
(Type,Key); a point is applied iff its Time is strictly greater than the stored value's
Time (ties keep the existing stored point)"; a point whose key is not stored yet is
applied.  The result is the points after the merge and whether the point was applied. -/
def mergePoint : List StoredPoint → StoredPoint → List StoredPoint × Bool
  | [], p => ([p], true)
  | q :: qs, p =>
    if sameKey q p then
      if q.Time < p.Time then (p :: qs, true) else (q :: qs, false)
    else ((mergePoint qs p).1.cons q, (mergePoint qs p).2)

/-- Modelled from the spec: the merge of a batch, point by point in batch order, which is
outside src/: the points after the merge, and the applied points (the ones reported to
the ChangeBus). -/
def mergePoints : List StoredPoint → List StoredPoint → List StoredPoint × List StoredPoint
  | pts, [] => (pts, [])
  | pts, p :: ps =>
    let r := mergePoint pts p
    let rest := mergePoints r.1 ps
    (rest.1, if r.2 then p :: rest.2 else rest.2)

/-- Modelled from the spec: the write `nodePoints(ownerID, points)` (`UpsertPoints`), which
is outside src/: an unknown owner is created by the write.  The result is the store after
the write and the applied points. -/
def nodePoints (s : PointStore) (ownerID : String) (points : List StoredPoint) :
    PointStore × List StoredPoint :=
  let r := mergePoints ((s ownerID).getD []) points
  (fun o => if o = ownerID then some r.1 else s o, r.2)

/-- The order of the snapshot: by `(Type, Key)`. -/
def keyLE (a b : StoredPoint) : Bool :=
  decide (a.Type_ < b.Type_) || (a.Type_ == b.Type_ && !decide (b.Key < a.Key))

/-- Modelled from the spec: the points of the node that `getNodes` returns for an owner ID
(`GetPoints`), which is outside src/: "a deterministic snapshot ordered by (Type,Key)";
`none` is the NotFound error of an unknown owner. -/
def getNodes (s : PointStore) (ownerID : String) : Option (List StoredPoint) :=
  (s ownerID).map (List.insertionSort (fun a b => keyLE a b = true))

/-- The merge of one point into the stored points of its own key. -/
def mergeKey : List StoredPoint → StoredPoint → List StoredPoint
  | [], p => [p]
  | q :: qs, p => (if q.Time < p.Time then p else q) :: qs

/-- The store with no owner. -/
def emptyStore : PointStore := fun _ => none

/-- A value point written at time 100. -/
def olderValue : StoredPoint := { Type_ := "value", Time := 100, Value := F64.fin 1 }

/-- A point of the same type and key written at time 200. -/
def newerValue : StoredPoint := { Type_ := "value", Time := 200, Value := F64.fin 2 }

/-- A point of another type. -/
def descriptionPoint : StoredPoint := { Type_ := "description", Time := 150, Text := "root" }

end SimpleIot

namespace SimpleIot

/-! ## Traces -/

theorem sends_append (a b : List Event) : sends (a ++ b) = sends a ++ sends b := by
  induction a with
  | nil => rfl
  | cons e es ih => cases e <;> simp [sends, ih]

theorem writes_append (a b : List Event) : writes (a ++ b) = writes a ++ writes b := by
  simp [writes, sends_append]

theorem writesTo_append (id : String) (a b : List Event) :
    writesTo id (a ++ b) = writesTo id a ++ writesTo id b := by
  simp [writesTo, writes_append]

theorem writes_sendLogged (env : Env) (id : String) (p : Point) (msg : String)
    (tr : List Event) :
    writes (sendLogged env id p msg tr) = writes tr ++ [(id, p.untimed)] := by
  unfold sendLogged
  cases env.sendNodePoint tr id p <;> rw [writes_append] <;> simp [writes, sends]

theorem untimed_activePoint (env : Env) (tr : List Event) (b : Bool) :
    (activePoint env tr b).untimed = activeWrite b := rfl

/-! ## The condition loop -/

theorem condStep_pointProcessed (env : Env) (nodeID : String) (p : Point)
    (st : LoopState) (c : Condition) :
    (condStep env nodeID p st c).pointProcessed
      = (st.pointProcessed || condMatches c nodeID p) := by
  unfold condStep
  cases h : condMatches c nodeID p <;> simp

theorem condStep_allActive (env : Env) (nodeID : String) (p : Point)
    (st : LoopState) (c : Condition) :
    (condStep env nodeID p st c).allActive
      = (st.allActive && (!condMatches c nodeID p || condActive c p)) := by
  unfold condStep
  cases h : condMatches c nodeID p <;> cases h2 : condActive c p <;> simp

theorem condStep_writes (env : Env) (nodeID : String) (p : Point)
    (st : LoopState) (c : Condition) :
    writes (condStep env nodeID p st c).trace
      = writes st.trace ++ condWrite nodeID p c := by
  unfold condStep condWrite
  cases h : condMatches c nodeID p
  · simp
  · by_cases h2 : condActive c p = c.Active
    · simp [h2]
    · simp [h2, writes_sendLogged, untimed_activePoint]

theorem condLoop_pointProcessed (env : Env) (nodeID : String) (p : Point)
    (conds : List Condition) (st : LoopState) :
    (condLoop env nodeID p conds st).pointProcessed
      = (st.pointProcessed || conds.any (fun c => condMatches c nodeID p)) := by
  induction conds generalizing st with
  | nil => simp [condLoop]
  | cons c cs ih =>
    have h := ih (condStep env nodeID p st c)
    simp only [condLoop, List.foldl_cons] at h ⊢
    rw [h, condStep_pointProcessed, List.any_cons, Bool.or_assoc]

theorem condLoop_allActive (env : Env) (nodeID : String) (p : Point)
    (conds : List Condition) (st : LoopState) :
    (condLoop env nodeID p conds st).allActive
      = (st.allActive &&
          (conds.filter (fun c => condMatches c nodeID p)).all (fun c => condActive c p)) := by
  induction conds generalizing st with
  | nil => simp [condLoop]
  | cons c cs ih =>
    have h := ih (condStep env nodeID p st c)
    simp only [condLoop, List.foldl_cons] at h ⊢
    rw [h, condStep_allActive]
    cases hm : condMatches c nodeID p <;> simp [List.filter_cons, hm, Bool.and_assoc]

theorem condLoop_writes (env : Env) (nodeID : String) (p : Point)
    (conds : List Condition) (st : LoopState) :
    writes (condLoop env nodeID p conds st).trace
      = writes st.trace ++ condWrites nodeID p conds := by
  induction conds generalizing st with
  | nil => simp [condLoop, condWrites]
  | cons c cs ih =>
    have h := ih (condStep env nodeID p st c)
    simp only [condLoop, List.foldl_cons] at h ⊢
    rw [h, condStep_writes, condWrites, List.append_assoc]

theorem any_eq_not_isEmpty_filter {α : Type} (f : α → Bool) (l : List α) :
    l.any f = !(l.filter f).isEmpty := by
  induction l with
  | nil => rfl
  | cons a as ih => cases h : f a <;> simp [List.filter_cons, h, ih]

/-! ## One point -/

theorem pointStep_pointProcessed (env : Env) (r : Rule) (nodeID : String) (p : Point)
    (tr : List Event) :
    (pointStep env r nodeID p tr).pointProcessed = !(touched r nodeID p).isEmpty := by
  have h := condLoop_pointProcessed env nodeID p r.Conditions
    { allActive := true, pointProcessed := false, trace := tr }
  simp only [Bool.false_or] at h
  unfold pointStep touched
  rw [← any_eq_not_isEmpty_filter, ← h]
  generalize condLoop env nodeID p r.Conditions _ = st
  by_cases h1 : st.pointProcessed = true <;>
    by_cases h2 : (st.allActive != r.Active) = true <;> simp [h1, h2]

theorem pointStep_allActive (env : Env) (r : Rule) (nodeID : String) (p : Point)
    (tr : List Event) :
    (pointStep env r nodeID p tr).allActive = touchedAnd r nodeID p := by
  have h := condLoop_allActive env nodeID p r.Conditions
    { allActive := true, pointProcessed := false, trace := tr }
  simp only [Bool.true_and] at h
  unfold pointStep touchedAnd touched
  rw [← h]
  generalize condLoop env nodeID p r.Conditions _ = st
  by_cases h1 : st.pointProcessed = true <;>
    by_cases h2 : (st.allActive != r.Active) = true <;> simp [h1, h2]

theorem pointStep_writes (env : Env) (r : Rule) (nodeID : String) (p : Point)
    (tr : List Event) :
    writes (pointStep env r nodeID p tr).trace = writes tr ++ pointWrites r nodeID p := by
  have hp := condLoop_pointProcessed env nodeID p r.Conditions
    { allActive := true, pointProcessed := false, trace := tr }
  have ha := condLoop_allActive env nodeID p r.Conditions
    { allActive := true, pointProcessed := false, trace := tr }
  have hw := condLoop_writes env nodeID p r.Conditions
    { allActive := true, pointProcessed := false, trace := tr }
  simp only [Bool.false_or, Bool.true_and] at hp ha hw
  rw [any_eq_not_isEmpty_filter] at hp
  unfold pointStep pointWrites ruleWrite touchedAnd touched
  rw [← hp, ← ha, ← List.append_assoc, ← hw]
  generalize condLoop env nodeID p r.Conditions _ = st
  by_cases h1 : st.pointProcessed = true <;>
    by_cases h2 : (st.allActive != r.Active) = true <;>
    simp [h1, h2, writes_sendLogged, untimed_activePoint]

/-! ## A batch -/

theorem ruleProcessPoints_result (env : Env) (r : Rule) (nodeID : String)
    (points : List Point) (tr : List Event) :
    (ruleProcessPoints env r nodeID points tr).1
      = (points.any (fun p => firing r nodeID p), none) := by
  induction points generalizing tr with
  | nil => rfl
  | cons p ps ih =>
    unfold ruleProcessPoints
    simp only [pointStep_pointProcessed, pointStep_allActive, List.any_cons]
    by_cases h : firing r nodeID p = true
    · have h2 := h
      unfold firing at h2
      simp [h, h2]
    · have h2 := h
      unfold firing at h2
      simp only [h2, Bool.false_eq_true, if_false]
      rw [ih]
      simp [h]

theorem ruleProcessPoints_writes (env : Env) (r : Rule) (nodeID : String)
    (points : List Point) (tr : List Event) :
    writes (ruleProcessPoints env r nodeID points tr).2
      = writes tr ++ batchWrites r nodeID points := by
  induction points generalizing tr with
  | nil => simp [ruleProcessPoints, batchWrites]
  | cons p ps ih =>
    unfold ruleProcessPoints batchWrites
    simp only [pointStep_pointProcessed, pointStep_allActive]
    by_cases h : firing r nodeID p = true
    · have h2 := h
      unfold firing at h2
      simp [h, h2, pointStep_writes]
    · have h2 := h
      unfold firing at h2
      simp only [h2, Bool.false_eq_true, if_false]
      rw [ih, pointStep_writes]
      simp [h]

theorem writesTo_of_writes (id : String) (a b : List Event) (ws : List (String × Point))
    (h : writes a = writes b ++ ws) :
    writesTo id a = writesTo id b ++ (ws.filter (fun w => w.1 == id)).map (fun w => w.2) := by
  simp [writesTo, h]

theorem filter_condWrite_self (nodeID : String) (p : Point) (c : Condition) :
    (condWrite nodeID p c).filter (fun w => w.1 == c.ID) = condWrite nodeID p c := by
  unfold condWrite
  split <;> simp

theorem filter_condWrite_ne (nodeID : String) (p : Point) (c : Condition) (id : String)
    (h : c.ID ≠ id) : (condWrite nodeID p c).filter (fun w => w.1 == id) = [] := by
  unfold condWrite
  split <;> simp [h]

theorem filter_condWrites_not_mem (nodeID : String) (p : Point) (conds : List Condition)
    (id : String) (h : id ∉ conds.map Condition.ID) :
    (condWrites nodeID p conds).filter (fun w => w.1 == id) = [] := by
  induction conds with
  | nil => simp [condWrites]
  | cons d ds ih =>
    simp only [List.map_cons, List.mem_cons, not_or] at h
    rw [condWrites, List.filter_append, ih h.2,
      filter_condWrite_ne nodeID p d id (fun e => h.1 e.symm)]
    rfl

theorem filter_condWrites_mem (nodeID : String) (p : Point) (conds : List Condition)
    (c : Condition) (hc : c ∈ conds) (hn : (conds.map Condition.ID).Nodup) :
    (condWrites nodeID p conds).filter (fun w => w.1 == c.ID) = condWrite nodeID p c := by
  induction conds with
  | nil => simp at hc
  | cons d ds ih =>
    simp only [List.map_cons, List.nodup_cons] at hn
    rw [condWrites, List.filter_append]
    by_cases hcd : c = d
    · subst hcd
      rw [filter_condWrite_self, filter_condWrites_not_mem nodeID p ds c.ID hn.1]
      simp
    · have hmem : c ∈ ds := by
        rcases List.mem_cons.mp hc with h | h
        · exact absurd h hcd
        · exact h
      have hne : d.ID ≠ c.ID := by
        intro e
        apply hn.1
        rw [e]
        exact List.mem_map_of_mem Condition.ID hmem
      rw [filter_condWrite_ne nodeID p d c.ID hne, ih hmem hn.2]
      rfl

theorem filter_ruleWrite_ne (r : Rule) (nodeID : String) (p : Point) (id : String)
    (h : r.ID ≠ id) : (ruleWrite r nodeID p).filter (fun w => w.1 == id) = [] := by
  unfold ruleWrite
  split <;> simp [h]

theorem single_batchWrites (r : Rule) (nodeID : String) (p : Point) :
    batchWrites r nodeID [p] = pointWrites r nodeID p := by
  simp [batchWrites]

/-! ## Conditions -/

/-- C1: a single point that matches condition `c` makes the iteration for `c` send
exactly one `Active` point to `c.ID`, carrying `BoolToFloat` of the recomputed
boolean, when that boolean differs from `c.Active`, and nothing when it is equal; when
node IDs are unique these are all the points the call sends to `c.ID`. -/
theorem condition_write_is_edge_triggered (env : Env) (r : Rule) (nodeID : String)
    (p : Point) (tr : List Event) (c : Condition) (hc : c ∈ r.Conditions)
    (hm : condMatches c nodeID p = true) :
    (∀ st : LoopState,
      writes (condStep env nodeID p st c).trace = writes st.trace ++
        (if condActive c p != c.Active then [(c.ID, activeWrite (condActive c p))]
         else [])) ∧
    (r.distinctIDs →
      writesTo c.ID (ruleProcessPoints env r nodeID [p] tr).2 = writesTo c.ID tr ++
        (if condActive c p != c.Active then [activeWrite (condActive c p)] else [])) := by
  constructor
  · intro st
    rw [condStep_writes, condWrite, hm, Bool.true_and]
  · intro hd
    have hrid : r.ID ≠ c.ID := fun e =>
      hd.2 (e ▸ List.mem_map_of_mem Condition.ID hc)
    rw [writesTo_of_writes c.ID _ tr _ (ruleProcessPoints_writes env r nodeID [p] tr),
      single_batchWrites, pointWrites, List.filter_append,
      filter_condWrites_mem nodeID p r.Conditions c hc hd.1,
      filter_ruleWrite_ne r nodeID p c.ID hrid, condWrite, hm, Bool.true_and]
    split <;> simp

theorem scenarioRule_distinctIDs : scenarioRule.distinctIDs := by
  simp [Rule.distinctIDs, scenarioRule, scenarioCond]

theorem scenarioCond_matches (nodeID : String) (v : ℚ) :
    condMatches scenarioCond nodeID (temp v) = true := by
  simp [condMatches, scenarioCond, temp]

/-- Witness of C1: the reading `temp = 35` flips the scenario condition, and the call
sends the one point `Active = 1` to it. -/
theorem condition_write_is_edge_triggered_witness :
    scenarioCond ∈ scenarioRule.Conditions ∧
    condMatches scenarioCond "node" (temp 35) = true ∧
    scenarioRule.distinctIDs ∧
    writesTo scenarioCond.ID (ruleProcessPoints quietEnv scenarioRule "node" [temp 35] []).2
      = writesTo scenarioCond.ID [] ++
        (if condActive scenarioCond (temp 35) != scenarioCond.Active then
          [activeWrite (condActive scenarioCond (temp 35))] else []) :=
  ⟨by simp [scenarioRule], scenarioCond_matches "node" 35, scenarioRule_distinctIDs,
   (condition_write_is_edge_triggered quietEnv scenarioRule "node" (temp 35) []
      scenarioCond (by simp [scenarioRule]) (scenarioCond_matches "node" 35)).2
      scenarioRule_distinctIDs⟩

/-- C2: for a condition whose scope matches the point, the boolean that the loop body
recomputes (the one it folds into the rule-level AND and compares with `c.Active`
before writing) is the reference value: `>`, `<`, `==`, `!=` of `p.Value` against
`c.PointValue` for a Number condition with the corresponding operator, and
`(c.PointValue != 0) == (p.Value != 0)` for an OnOff condition whatever its
operator. -/
theorem condition_evaluation_is_reference (env : Env) (nodeID : String) (p : Point)
    (st : LoopState) (c : Condition) (b : Bool)
    (hm : condMatches c nodeID p = true) (hb : condActiveSpec c p = some b) :
    condActive c p = b ∧
    (condStep env nodeID p st c).allActive = (st.allActive && b) ∧
    (condStep env nodeID p st c).pointProcessed = true ∧
    writes (condStep env nodeID p st c).trace = writes st.trace ++
      (if b != c.Active then [(c.ID, activeWrite b)] else []) := by
  have h : condActive c p = b := by
    unfold condActiveSpec at hb
    unfold condActive
    cases hvt : c.PointValueType <;> cases hop : c.Operator <;>
      simp_all
  refine ⟨h, ?_, ?_, ?_⟩
  · rw [condStep_allActive, hm, h]; simp
  · rw [condStep_pointProcessed, hm]; simp
  · rw [condStep_writes, condWrite, hm, h, Bool.true_and]

/-- Witness of C2: `temp = 35` against the scenario condition `temp > 30`. -/
theorem condition_evaluation_is_reference_witness :
    condMatches scenarioCond "node" (temp 35) = true ∧
    condActiveSpec scenarioCond (temp 35) = some true ∧
    (condActive scenarioCond (temp 35) = true ∧
     (condStep quietEnv "node" (temp 35)
        { allActive := true, pointProcessed := false, trace := [] } scenarioCond).allActive
       = (true && true) ∧
     (condStep quietEnv "node" (temp 35)
        { allActive := true, pointProcessed := false, trace := [] }
        scenarioCond).pointProcessed = true ∧
     writes (condStep quietEnv "node" (temp 35)
        { allActive := true, pointProcessed := false, trace := [] } scenarioCond).trace
       = writes [] ++
         (if true != scenarioCond.Active then [(scenarioCond.ID, activeWrite true)]
          else [])) :=
  ⟨scenarioCond_matches "node" 35,
   by simp [condActiveSpec, scenarioCond, temp, F64.gt, F64.lt]; norm_num,
   condition_evaluation_is_reference quietEnv "node" (temp 35)
      { allActive := true, pointProcessed := false, trace := [] } scenarioCond true
      (scenarioCond_matches "node" 35)
      (by simp [condActiveSpec, scenarioCond, temp, F64.gt, F64.lt]; norm_num)⟩

theorem condMatches_iff (c : Condition) (nodeID : String) (p : Point) :
    condMatches c nodeID p = true ↔ scopeFull c nodeID p := by
  unfold condMatches scopeFull
  by_cases h1 : c.NodeID = "" <;> by_cases h2 : c.NodeID = nodeID <;>
    by_cases h3 : c.PointID = "" <;> by_cases h4 : c.PointID = p.ID <;>
    by_cases h5 : c.PointType = "" <;> by_cases h6 : c.PointType = p.Type_ <;>
    by_cases h7 : c.PointIndex = -1 <;> by_cases h8 : c.PointIndex = p.Index <;>
    simp [h1, h2, h3, h4, h5, h6, h7, h8]

/-- C3, as stated, fails: the condition `pointIDCond` has empty `NodeID` and
`PointType` and `PointIndex = -1`, so the three stated criteria hold for the reading
of sensor B, yet the loop body skips the condition (its `PointID` is `sensorA`):
`pointProcessed` stays false and the state is unchanged. -/
theorem scope_three_criteria_counterexample :
    scopeSpec pointIDCond "node" sensorBPoint ∧
    condStep quietEnv "node" sensorBPoint
      { allActive := true, pointProcessed := false, trace := [] } pointIDCond
      = { allActive := true, pointProcessed := false, trace := [] } := by
  constructor
  · simp [scopeSpec, pointIDCond]
  · simp [condStep, condMatches, pointIDCond, sensorBPoint]

/-- C3, amended: the loop body recomputes the boolean of `c` for `p` (and marks the
point as processed) if and only if `NodeID` is empty or equals the node ID, `PointID`
is empty or equals `p.ID`, `PointType` is empty or equals `p.Type`, and `PointIndex` is
`-1` or equals `p.Index`; otherwise it leaves the loop state untouched. -/
theorem scope_four_criteria (env : Env) (nodeID : String) (p : Point) (tr : List Event)
    (st : LoopState) (c : Condition) :
    ((condStep env nodeID p { allActive := true, pointProcessed := false, trace := tr }
        c).pointProcessed = true ↔ scopeFull c nodeID p) ∧
    (scopeFull c nodeID p ∨ condStep env nodeID p st c = st) := by
  constructor
  · rw [condStep_pointProcessed, ← condMatches_iff]
    simp
  · by_cases h : condMatches c nodeID p = true
    · exact Or.inl ((condMatches_iff c nodeID p).mp h)
    · right
      unfold condStep
      simp [h]

/-! ## The rule -/

/-- C4: for a single point `p` that matches at least one condition, the rule-level
boolean is the AND of the recomputed booleans of exactly the conditions `p` matches;
the call returns it, and after the condition writes it sends exactly one `Active`
point with that value to `r.ID` if it differs from `r.Active` and none if it is equal
(when the rule shares its ID with no condition, these are all the points sent to
`r.ID`); when `p` matches no condition the call sends nothing at all. -/
theorem rule_active_is_and_of_touched (env : Env) (r : Rule) (nodeID : String)
    (p : Point) (tr : List Event) :
    (r.Conditions.any (fun c => condMatches c nodeID p) = true →
      (pointStep env r nodeID p tr).allActive
        = (r.Conditions.filter (fun c => condMatches c nodeID p)).all
            (fun c => condActive c p) ∧
      (ruleProcessPoints env r nodeID [p] tr).1
        = ((pointStep env r nodeID p tr).allActive, none) ∧
      writes (ruleProcessPoints env r nodeID [p] tr).2
        = writes (condLoop env nodeID p r.Conditions
            { allActive := true, pointProcessed := false, trace := tr }).trace ++
          (if (pointStep env r nodeID p tr).allActive != r.Active then
            [(r.ID, activeWrite (pointStep env r nodeID p tr).allActive)] else []) ∧
      (r.ID ∉ r.Conditions.map Condition.ID →
        writesTo r.ID (ruleProcessPoints env r nodeID [p] tr).2 = writesTo r.ID tr ++
          (if (pointStep env r nodeID p tr).allActive != r.Active then
            [activeWrite (pointStep env r nodeID p tr).allActive] else []))) ∧
    (r.Conditions.any (fun c => condMatches c nodeID p) = false →
      ruleProcessPoints env r nodeID [p] tr = ((false, none), tr)) := by
  constructor
  · intro hany
    have hne : (touched r nodeID p).isEmpty = false := by
      have := any_eq_not_isEmpty_filter (fun c => condMatches c nodeID p) r.Conditions
      rw [hany] at this
      unfold touched
      cases h : (List.filter (fun c => condMatches c nodeID p) r.Conditions).isEmpty
      · rfl
      · rw [h] at this; simp at this
    refine ⟨?_, ?_, ?_, ?_⟩
    · rw [pointStep_allActive]; rfl
    · rw [ruleProcessPoints_result, pointStep_allActive]
      simp [firing, hne]
    · rw [ruleProcessPoints_writes, condLoop_writes, single_batchWrites, pointWrites,
        pointStep_allActive, ruleWrite, hne]
      simp
    · intro hrid
      rw [writesTo_of_writes r.ID _ tr _ (ruleProcessPoints_writes env r nodeID [p] tr),
        single_batchWrites, pointWrites, List.filter_append,
        filter_condWrites_not_mem nodeID p r.Conditions r.ID hrid,
        pointStep_allActive, ruleWrite, hne]
      simp only [Bool.not_false, Bool.true_and, List.nil_append]
      split <;> simp
  · intro hany
    have hst : condLoop env nodeID p r.Conditions
        { allActive := true, pointProcessed := false, trace := tr }
        = { allActive := true, pointProcessed := false, trace := tr } := by
      have hall : ∀ c ∈ r.Conditions, condMatches c nodeID p = false := by
        intro c hc
        have := List.any_eq_false.mp hany c hc
        simpa using this
      generalize r.Conditions = conds at hall
      induction conds with
      | nil => rfl
      | cons d ds ih =>
        have hd := hall d (List.mem_cons_self d ds)
        simp only [condLoop, List.foldl_cons]
        have : condStep env nodeID p
            { allActive := true, pointProcessed := false, trace := tr } d
            = { allActive := true, pointProcessed := false, trace := tr } := by
          unfold condStep
          simp [hd]
        rw [this]
        exact ih (fun c hc => hall c (List.mem_cons_of_mem d hc))
    simp [ruleProcessPoints, pointStep, hst]

/-- Witness of C4: the reading `temp = 35` on the scenario rule, which matches its
condition, and a humidity reading, which matches none. -/
theorem rule_active_is_and_of_touched_witness :
    (scenarioRule.Conditions.any (fun c => condMatches c "node" (temp 35)) = true ∧
     scenarioRule.ID ∉ scenarioRule.Conditions.map Condition.ID ∧
     (ruleProcessPoints quietEnv scenarioRule "node" [temp 35] []).1
       = ((pointStep quietEnv scenarioRule "node" (temp 35) []).allActive, none) ∧
     writesTo scenarioRule.ID (ruleProcessPoints quietEnv scenarioRule "node" [temp 35] []).2
       = writesTo scenarioRule.ID [] ++
         (if (pointStep quietEnv scenarioRule "node" (temp 35) []).allActive
               != scenarioRule.Active then
           [activeWrite (pointStep quietEnv scenarioRule "node" (temp 35) []).allActive]
          else [])) ∧
    (scenarioRule.Conditions.any (fun c => condMatches c "node" humidityPoint) = false ∧
     ruleProcessPoints quietEnv scenarioRule "node" [humidityPoint] [] = ((false, none), [])) :=
  have hany : scenarioRule.Conditions.any (fun c => condMatches c "node" (temp 35)) = true := by
    simp [scenarioRule, scenarioCond_matches]
  have hnone :
      scenarioRule.Conditions.any (fun c => condMatches c "node" humidityPoint) = false := by
    simp [scenarioRule, scenarioCond, condMatches, humidityPoint]
  have h := (rule_active_is_and_of_touched quietEnv scenarioRule "node" (temp 35) []).1 hany
  ⟨⟨hany, scenarioRule_distinctIDs.2, h.2.1, h.2.2.2 scenarioRule_distinctIDs.2⟩,
   ⟨hnone,
    (rule_active_is_and_of_touched quietEnv scenarioRule "node" humidityPoint []).2 hnone⟩⟩

theorem ruleProcessPoints_cons (env : Env) (r : Rule) (nodeID : String) (p : Point)
    (ps : List Point) (tr : List Event) :
    ruleProcessPoints env r nodeID (p :: ps) tr
      = if firing r nodeID p = true then ((true, none), (pointStep env r nodeID p tr).trace)
        else ruleProcessPoints env r nodeID ps (pointStep env r nodeID p tr).trace := by
  rw [ruleProcessPoints]
  simp only [pointStep_pointProcessed, pointStep_allActive]
  rfl

theorem ruleProcessPoints_append (env : Env) (r : Rule) (nodeID : String)
    (pre more : List Point) (tr : List Event)
    (h : ∀ q ∈ pre, firing r nodeID q = false) :
    ruleProcessPoints env r nodeID (pre ++ more) tr
      = ruleProcessPoints env r nodeID more
          (pre.foldl (fun t q => (pointStep env r nodeID q t).trace) tr) := by
  induction pre generalizing tr with
  | nil => rfl
  | cons q qs ih =>
    have hq := h q (List.mem_cons_self q qs)
    rw [List.cons_append, ruleProcessPoints_cons, hq]
    simp only [Bool.false_eq_true, if_false, List.foldl_cons]
    exact ih _ (fun x hx => h x (List.mem_cons_of_mem q hx))

/-- C5: `ruleProcessPoints` returns `(true, nil)` if and only if the batch contains a
firing point; its result and its whole trace are those of the run on the prefix of the
batch that ends at the first firing point; with no firing point it returns
`(false, nil)` after evaluating every point of the batch in order. -/
theorem first_match_wins (env : Env) (r : Rule) (nodeID : String) (points : List Point)
    (tr : List Event) :
    ((ruleProcessPoints env r nodeID points tr).1 = (true, none) ↔
      ∃ p ∈ points, firing r nodeID p = true) ∧
    (∀ (pre : List Point) (p : Point) (post : List Point),
      points = pre ++ p :: post → (∀ q ∈ pre, firing r nodeID q = false) →
      firing r nodeID p = true →
      ruleProcessPoints env r nodeID points tr
        = ruleProcessPoints env r nodeID (pre ++ [p]) tr) ∧
    ((∀ q ∈ points, firing r nodeID q = false) →
      ruleProcessPoints env r nodeID points tr
        = ((false, none),
           points.foldl (fun t q => (pointStep env r nodeID q t).trace) tr)) := by
  refine ⟨?_, ?_, ?_⟩
  · rw [ruleProcessPoints_result]
    simp
  · intro pre p post hpts hpre hp
    rw [hpts, ruleProcessPoints_append env r nodeID pre (p :: post) tr hpre,
      ruleProcessPoints_append env r nodeID pre [p] tr hpre,
      ruleProcessPoints_cons, ruleProcessPoints_cons, hp]
    rfl
  · intro hall
    have h := ruleProcessPoints_append env r nodeID points [] tr hall
    rw [List.append_nil] at h
    rw [h]
    rfl

/-- Witness of C5: in the batch `20, 35, 25` on the scenario rule the reading `35` is
the first firing point; the run equals the run on `20, 35`, and the run on the
non-firing batch `20, 25` returns false. -/
theorem first_match_wins_witness :
    ([temp 20, temp 35, temp 25] = [temp 20] ++ temp 35 :: [temp 25] ∧
     (∀ q ∈ [temp 20], firing scenarioRule "node" q = false) ∧
     firing scenarioRule "node" (temp 35) = true ∧
     ruleProcessPoints quietEnv scenarioRule "node" [temp 20, temp 35, temp 25] []
       = ruleProcessPoints quietEnv scenarioRule "node" ([temp 20] ++ [temp 35]) []) ∧
    ((∀ q ∈ [temp 20, temp 25], firing scenarioRule "node" q = false) ∧
     ruleProcessPoints quietEnv scenarioRule "node" [temp 20, temp 25] []
       = ((false, none),
          [temp 20, temp 25].foldl
            (fun t q => (pointStep quietEnv scenarioRule "node" q t).trace) [])) :=
  have h20 : firing scenarioRule "node" (temp 20) = false := by
    simp [firing, touched, touchedAnd, scenarioRule, scenarioCond_matches]
    simp [condActive, scenarioCond, temp, F64.gt, F64.lt]
    norm_num
  have h25 : firing scenarioRule "node" (temp 25) = false := by
    simp [firing, touched, touchedAnd, scenarioRule, scenarioCond_matches]
    simp [condActive, scenarioCond, temp, F64.gt, F64.lt]
    norm_num
  have h35 : firing scenarioRule "node" (temp 35) = true := by
    simp [firing, touched, touchedAnd, scenarioRule, scenarioCond_matches]
    simp [condActive, scenarioCond, temp, F64.gt, F64.lt]
    norm_num
  have hpre : ∀ q ∈ [temp 20], firing scenarioRule "node" q = false := by
    intro q hq
    rw [List.mem_singleton.mp hq]
    exact h20
  have hall : ∀ q ∈ [temp 20, temp 25], firing scenarioRule "node" q = false := by
    intro q hq
    rcases List.mem_cons.mp hq with h | h
    · rw [h]; exact h20
    · rw [List.mem_singleton.mp h]; exact h25
  ⟨⟨rfl, hpre, h35,
    (first_match_wins quietEnv scenarioRule "node" [temp 20, temp 35, temp 25] []).2.1
      [temp 20] (temp 35) [temp 25] rfl hpre h35⟩,
   ⟨hall, (first_match_wins quietEnv scenarioRule "node" [temp 20, temp 25] []).2.2 hall⟩⟩

/-- C6, as stated, fails: the rule `activeRule` is already active when the batch is
submitted, the reading `temp = 35` keeps it active (no `Active` write at all), and
`ruleProcessPoints` still returns true. -/
theorem actions_signalled_without_transition_counterexample :
    activeRule.Active = true ∧
    ruleProcessPoints quietEnv activeRule "node" [temp 35] [] = ((true, none), []) := by
  constructor
  · rfl
  · simp [ruleProcessPoints, pointStep, condLoop, condStep, activeRule, scenarioRule,
      scenarioCond, condMatches, condActive, temp, F64.gt, F64.lt]
    norm_num

/-- C6, amended: `ruleProcessPoints` returns true if and only if the batch contains a
firing point, whatever `r.Active` was at submission: replacing `r.Active` by any
boolean never changes the returned pair. -/
theorem actions_signalled_on_level (env : Env) (r : Rule) (nodeID : String)
    (points : List Point) (tr : List Event) (b : Bool) :
    ((ruleProcessPoints env r nodeID points tr).1.1 = true ↔
      ∃ p ∈ points, firing r nodeID p = true) ∧
    (ruleProcessPoints env { r with Active := b } nodeID points tr).1
      = (ruleProcessPoints env r nodeID points tr).1 := by
  constructor
  · rw [ruleProcessPoints_result]
    simp
  · rw [ruleProcessPoints_result, ruleProcessPoints_result]
    rfl

/-! ## Actions -/

theorem runActions_setValue (env : Env) (r : Rule) (triggerNode : String)
    (as : List Action) (tr : List Event)
    (h : ∀ a ∈ as, a.Action = ActionKind.setValue) :
    (runActions env r triggerNode as tr).1 = none ∧
    writes (runActions env r triggerNode as tr).2 = writes tr ++ as.map actionWrite := by
  induction as generalizing tr with
  | nil => simp [runActions]
  | cons a rest ih =>
    have ha := h a (List.mem_cons_self a rest)
    have hrest := fun x hx => h x (List.mem_cons_of_mem a hx)
    rw [runActions]
    simp only [ha]
    have hi := ih
      (sendLogged env a.NodeID
        { Time := env.now (if (a.NodeID == "") = true then
              tr ++ [Event.log ["Error, node action nodeID must be set, action id: ", a.ID]]
            else tr),
          Type_ := a.PointType, Value := a.PointValue, Text := a.PointTextValue }
        "Error sending rule action point: "
        (if (a.NodeID == "") = true then
          tr ++ [Event.log ["Error, node action nodeID must be set, action id: ", a.ID]]
        else tr)) hrest
    refine ⟨hi.1, ?_⟩
    rw [hi.2, writes_sendLogged]
    have hlog : writes (if (a.NodeID == "") = true then
          tr ++ [Event.log ["Error, node action nodeID must be set, action id: ", a.ID]]
        else tr) = writes tr := by
      split
      · rw [writes_append]; simp [writes, sends]
      · rfl
    rw [hlog]
    simp [actionWrite, Point.untimed]

/-- C9: for a rule whose actions are all SetValue, `ruleRunActions` sends exactly one
point per action, in the order of `r.Actions`, each addressed to the `NodeID` of its action
with `Type = PointType`, `Value = PointValue` and `Text = PointTextValue`, and returns
nil, whatever the outside world answers to the sends. -/
theorem setValue_actions_run_in_order (env : Env) (r : Rule) (triggerNode : String)
    (tr : List Event) (h : ∀ a ∈ r.Actions, a.Action = ActionKind.setValue) :
    (ruleRunActions env r triggerNode tr).1 = none ∧
    writes (ruleRunActions env r triggerNode tr).2
      = writes tr ++ r.Actions.map (fun a =>
          (a.NodeID,
           { Type_ := a.PointType, Value := a.PointValue, Text := a.PointTextValue })) :=
  runActions_setValue env r triggerNode r.Actions tr h

/-- Witness of C9: the scenario rule in a world where every send fails. -/
theorem setValue_actions_run_in_order_witness :
    (∀ a ∈ scenarioRule.Actions, a.Action = ActionKind.setValue) ∧
    (ruleRunActions sendFailsEnv scenarioRule "node" []).1 = none ∧
    writes (ruleRunActions sendFailsEnv scenarioRule "node" []).2
      = writes [] ++ scenarioRule.Actions.map (fun a =>
          (a.NodeID,
           { Type_ := a.PointType, Value := a.PointValue, Text := a.PointTextValue })) :=
  have h : ∀ a ∈ scenarioRule.Actions, a.Action = ActionKind.setValue := by
    intro a ha
    simp only [scenarioRule, List.mem_singleton] at ha
    rw [ha]
    rfl
  ⟨h, setValue_actions_run_in_order sendFailsEnv scenarioRule "node" [] h⟩

/-- C10, the failing input: with a Notify action ahead of a SetValue action and a node
lookup that fails, `ruleRunActions` returns the lookup error at once and the SetValue
action is never attempted (the trace stays empty); where the lookup succeeds, the same
rule does send the SetValue point after publishing the notification. -/
theorem notify_failure_aborts_later_actions :
    ruleRunActions lookupFailsEnv notifyFirstRule "node" [] = (some "node not found", []) ∧
    (ruleRunActions quietEnv notifyFirstRule "node" []).1 = none ∧
    writes (ruleRunActions quietEnv notifyFirstRule "node" []).2
      = [("target", { Type_ := "alarm", Value := F64.fin 1 })] := by
  refine ⟨?_, ?_, ?_⟩
  · simp [ruleRunActions, runActions, notifyFirstRule, notifyAction, lookupFailsEnv]
  · simp [ruleRunActions, runActions, notifyFirstRule, notifyAction, scenarioAction,
      quietEnv, sendLogged]
  · simp [ruleRunActions, runActions, notifyFirstRule, notifyAction, scenarioAction,
      quietEnv, sendLogged, writes, sends, Point.untimed]

/-! ## The end-to-end scenario -/

theorem newWrites_of_writes (before after : List Event) (ws : List (String × Point))
    (h : writes after = writes before ++ ws) : newWrites before after = ws := by
  simp [newWrites, h]

theorem newWrites_self (tr : List Event) : newWrites tr tr = [] := by
  simp [newWrites]

theorem scenario_firing (v : ℚ) (nodeID : String) (r : Rule)
    (hr : r.Conditions = [scenarioCond] ∨
      r.Conditions = [{ scenarioCond with Active := true }]) :
    (touched r nodeID (temp v)).isEmpty = false ∧
    touchedAnd r nodeID (temp v) = decide (30 < v) := by
  have hm : condMatches { scenarioCond with Active := true } nodeID (temp v) = true := by
    simp [condMatches, scenarioCond, temp]
  rcases hr with h | h <;>
    simp [touched, touchedAnd, h, scenarioCond_matches, hm] <;>
    simp [condActive, scenarioCond, temp, F64.gt, F64.lt]

theorem scenario_cold (env : Env) (nodeID : String) (tr : List Event) :
    ruleProcessPoints env scenarioRule nodeID [temp 25] tr = ((false, none), tr) := by
  simp [ruleProcessPoints, pointStep, condLoop, condStep, scenarioRule,
    scenarioCond, condMatches, condActive, temp, F64.gt, F64.lt]
  norm_num

theorem scenario_hot (env : Env) (nodeID : String) (tr : List Event) :
    (ruleProcessPoints env scenarioRule nodeID [temp 35] tr).1 = (true, none) ∧
    newWrites tr (ruleProcessPoints env scenarioRule nodeID [temp 35] tr).2
      = [("cond", activeWrite true), ("rule", activeWrite true)] := by
  have hf := scenario_firing 35 nodeID scenarioRule (Or.inl rfl)
  have hd : decide ((30 : ℚ) < 35) = true := by norm_num
  rw [hd] at hf
  constructor
  · rw [ruleProcessPoints_result]
    simp [firing, hf.1, hf.2]
  · apply newWrites_of_writes
    rw [ruleProcessPoints_writes, single_batchWrites, pointWrites, ruleWrite, hf.1, hf.2]
    simp [condWrites, condWrite, scenarioRule, scenarioCond_matches]
    simp [condActive, scenarioCond, temp, F64.gt, F64.lt]
    norm_num

theorem scenario_alarm (env : Env) (nodeID : String) (tr : List Event) :
    (ruleRunActions env scenarioRule nodeID tr).1 = none ∧
    newWrites tr (ruleRunActions env scenarioRule nodeID tr).2
      = [("target", { Type_ := "alarm", Value := F64.fin 1 })] := by
  have h : ∀ a ∈ scenarioRule.Actions, a.Action = ActionKind.setValue := by
    intro a ha
    simp only [scenarioRule, List.mem_singleton] at ha
    rw [ha]
    rfl
  have hr := runActions_setValue env scenarioRule nodeID scenarioRule.Actions tr h
  refine ⟨hr.1, ?_⟩
  apply newWrites_of_writes
  rw [ruleRunActions, hr.2]
  simp [scenarioRule, actionWrite, scenarioAction]

theorem scenario_latched :
    applyWrites scenarioRule [("cond", activeWrite true), ("rule", activeWrite true)]
      = activeRule := by
  simp [applyWrites, applyWrite, activeWrite, PointTypeActive, BoolToFloat, scenarioRule,
    scenarioCond, activeRule, F64.eq, F64.one]

theorem scenario_cooled (env : Env) (nodeID : String) (tr : List Event) :
    (ruleProcessPoints env activeRule nodeID [temp 20] tr).1 = (false, none) ∧
    newWrites tr (ruleProcessPoints env activeRule nodeID [temp 20] tr).2
      = [("cond", activeWrite false), ("rule", activeWrite false)] := by
  have hf := scenario_firing 20 nodeID activeRule (Or.inr rfl)
  have hd : decide ((30 : ℚ) < 20) = false := by norm_num
  rw [hd] at hf
  constructor
  · rw [ruleProcessPoints_result]
    simp [firing, hf.1, hf.2]
  · apply newWrites_of_writes
    rw [ruleProcessPoints_writes, single_batchWrites, pointWrites, ruleWrite, hf.1, hf.2]
    simp [condWrites, condWrite, activeRule, scenarioRule]
    simp [condMatches, condActive, scenarioCond, temp, F64.gt, F64.lt]
    norm_num

/-- C7: the end-to-end scenario, in any outside world, for any node and from any trace.
Submitting `temp = 25` returns false and leaves the trace as it was; submitting
`temp = 35` returns true and writes `Active = 1` to the condition and then to the rule,
and `ruleRunActions` then returns nil and writes the one point `alarm = 1` to the
target node; once these `Active` writes are applied to the rule, submitting `temp = 20`
returns false and writes `Active = 0` to the condition and then to the rule. -/
theorem end_to_end_scenario (env : Env) (nodeID : String) (tr0 : List Event) :
    let s1 := ruleProcessPoints env scenarioRule nodeID [temp 25] tr0
    let r1 := applyWrites scenarioRule (newWrites tr0 s1.2)
    let s2 := ruleProcessPoints env r1 nodeID [temp 35] s1.2
    let a2 := ruleRunActions env r1 nodeID s2.2
    let r2 := applyWrites r1 (newWrites s1.2 s2.2)
    let s3 := ruleProcessPoints env r2 nodeID [temp 20] a2.2
    (s1 = ((false, none), tr0) ∧ r1 = scenarioRule) ∧
    (s2.1 = (true, none) ∧
      newWrites s1.2 s2.2 = [("cond", activeWrite true), ("rule", activeWrite true)] ∧
      a2.1 = none ∧
      newWrites s2.2 a2.2 = [("target", { Type_ := "alarm", Value := F64.fin 1 })]) ∧
    (s3.1 = (false, none) ∧
      newWrites a2.2 s3.2 = [("cond", activeWrite false), ("rule", activeWrite false)]) := by
  intro s1 r1 s2 a2 r2 s3
  have e1 : s1 = ((false, none), tr0) := scenario_cold env nodeID tr0
  have er1 : r1 = scenarioRule := by
    show applyWrites scenarioRule (newWrites tr0 s1.2) = scenarioRule
    rw [e1, newWrites_self]
    rfl
  have h2 := scenario_hot env nodeID s1.2
  have hs2 : s2 = ruleProcessPoints env scenarioRule nodeID [temp 35] s1.2 := by
    show ruleProcessPoints env r1 nodeID [temp 35] s1.2 = _
    rw [er1]
  have ha2 : a2 = ruleRunActions env scenarioRule nodeID s2.2 := by
    show ruleRunActions env r1 nodeID s2.2 = _
    rw [er1]
  have h3 := scenario_alarm env nodeID s2.2
  have er2 : r2 = activeRule := by
    show applyWrites r1 (newWrites s1.2 s2.2) = activeRule
    rw [er1, hs2, h2.2]
    exact scenario_latched
  have hs3 : s3 = ruleProcessPoints env activeRule nodeID [temp 20] a2.2 := by
    show ruleProcessPoints env r2 nodeID [temp 20] a2.2 = _
    rw [er2]
  have h4 := scenario_cooled env nodeID a2.2
  refine ⟨⟨e1, er1⟩, ⟨?_, ?_, ?_, ?_⟩, ⟨?_, ?_⟩⟩
  · rw [hs2]; exact h2.1
  · rw [hs2]; exact h2.2
  · rw [ha2]; exact h3.1
  · rw [ha2]; exact h3.2
  · rw [hs3]; exact h4.1
  · rw [hs3]; exact h4.2

/-! ## The latch over a batch -/

/-- C8, the failing input: the condition of `activeRule` is active at submission, and
the batch `temp = 20, temp = 25` holds two successive points that both match it and both
evaluate to false.  The latch flips once, yet the call writes `Active = 0` to the
condition twice, whatever the outside world answers: the second write reports no flip
and the writes do not alternate. -/
theorem condition_writes_repeat_within_batch (env : Env) :
    activeRule.Conditions.map Condition.Active = [true] ∧
    activeRule.Conditions.map (fun c => condMatches c "node" (temp 20)) = [true] ∧
    activeRule.Conditions.map (fun c => condMatches c "node" (temp 25)) = [true] ∧
    activeRule.Conditions.map (fun c => condActive c (temp 20)) = [false] ∧
    activeRule.Conditions.map (fun c => condActive c (temp 25)) = [false] ∧
    writesTo "cond" (ruleProcessPoints env activeRule "node" [temp 20, temp 25] []).2
      = [activeWrite false, activeWrite false] := by
  refine ⟨rfl, ?_, ?_, ?_, ?_, ?_⟩
  · simp [activeRule, condMatches, scenarioCond, temp]
  · simp [activeRule, condMatches, scenarioCond, temp]
  · simp [activeRule, condActive, scenarioCond, temp, F64.gt, F64.lt]
    norm_num
  · simp [activeRule, condActive, scenarioCond, temp, F64.gt, F64.lt]
    norm_num
  · have hw := ruleProcessPoints_writes env activeRule "node" [temp 20, temp 25] []
    rw [writesTo_of_writes "cond" _ [] _ hw]
    have h20 := scenario_firing 20 "node" activeRule (Or.inr rfl)
    have h25 := scenario_firing 25 "node" activeRule (Or.inr rfl)
    have d20 : decide ((30 : ℚ) < 20) = false := by norm_num
    have d25 : decide ((30 : ℚ) < 25) = false := by norm_num
    rw [d20] at h20
    rw [d25] at h25
    simp only [batchWrites, pointWrites, ruleWrite, firing, h20.1, h20.2, h25.1, h25.2]
    simp [condWrites, condWrite, activeRule, scenarioRule, writesTo, writes, sends]
    simp [condMatches, condActive, scenarioCond, temp, F64.gt, F64.lt]
    norm_num

/-! ## Text conditions -/

/-- C19: for a condition of value type Text whose scope matches the point, the
recomputed boolean is false whatever the operator (Equal, NotEqual, Contains or any
other) and whatever the point holds; so the iteration makes the rule-level AND false,
it writes `Active = 0` to the condition exactly when the stored `Active` is true, and
a single point that matches such a condition of the rule never fires. -/
theorem text_condition_is_never_active (env : Env) (r : Rule) (nodeID : String)
    (p : Point) (tr : List Event) (st : LoopState) (c : Condition)
    (ht : c.PointValueType = ValueType.text) (hm : condMatches c nodeID p = true) :
    condActive c p = false ∧
    (condStep env nodeID p st c).allActive = false ∧
    writes (condStep env nodeID p st c).trace = writes st.trace ++
      (if c.Active then [(c.ID, activeWrite false)] else []) ∧
    (c ∈ r.Conditions →
      (pointStep env r nodeID p tr).allActive = false ∧
      (ruleProcessPoints env r nodeID [p] tr).1 = (false, none)) := by
  have h : condActive c p = false := by
    unfold condActive
    rw [ht]
    cases c.Operator <;> rfl
  refine ⟨h, ?_, ?_, ?_⟩
  · rw [condStep_allActive, hm, h]; simp
  · rw [condStep_writes, condWrite, hm, h, Bool.true_and]
    cases c.Active <;> rfl
  · intro hc
    have hand : touchedAnd r nodeID p = false := by
      unfold touchedAnd touched
      rw [List.all_eq_false]
      exact ⟨c, List.mem_filter.mpr ⟨hc, hm⟩, by simp [h]⟩
    constructor
    · rw [pointStep_allActive, hand]
    · rw [ruleProcessPoints_result]
      simp [firing, hand]

/-- Witness of C19: the point `name = pump` against the active condition
`name Equal pump`. -/
theorem text_condition_is_never_active_witness :
    textCond.PointValueType = ValueType.text ∧
    condMatches textCond "node" namePoint = true ∧
    textCond ∈ textRule.Conditions ∧
    condActive textCond namePoint = false ∧
    writes (condStep quietEnv "node" namePoint
        { allActive := true, pointProcessed := false, trace := [] } textCond).trace
      = writes [] ++ (if textCond.Active then [(textCond.ID, activeWrite false)] else []) ∧
    (ruleProcessPoints quietEnv textRule "node" [namePoint] []).1 = (false, none) :=
  have hm : condMatches textCond "node" namePoint = true := by
    simp [condMatches, textCond, namePoint]
  have hc : textCond ∈ textRule.Conditions := by simp [textRule]
  have h := text_condition_is_never_active quietEnv textRule "node" namePoint []
    { allActive := true, pointProcessed := false, trace := [] } textCond rfl hm
  ⟨rfl, hm, hc, h.1, h.2.2.1, (h.2.2.2 hc).2⟩

/-! ## Netmask bits -/

theorem mask_closed_upward (m : Nat) (h : m &&& ((4294967295 ^^^ m) >>> 1) ≤ 0) (i : Nat)
    (hi : i + 1 < 32) (hb : m.testBit i = true) : m.testBit (i + 1) = true := by
  have h0 : m &&& ((4294967295 ^^^ m) >>> 1) = 0 := Nat.le_zero.mp h
  have ht := congrArg (fun x => x.testBit i) h0
  have e : (4294967295 : Nat) = 2 ^ 32 - 1 := by norm_num
  simp only [Nat.testBit_and, Nat.testBit_shiftRight, Nat.testBit_xor, Nat.zero_testBit, e,
    Nat.testBit_two_pow_sub_one, hb, Bool.true_and] at ht
  have hi2 : 1 + i < 32 := by omega
  simp only [hi2, decide_True, Bool.true_xor, Bool.not_eq_false'] at ht
  rw [Nat.add_comm]
  exact ht

theorem testBit_pfx_mask (s i : Nat) :
    ((4294967295 <<< s) % 4294967296).testBit i = (decide (s ≤ i) && decide (i < 32)) := by
  have e : (4294967295 : Nat) = 2 ^ 32 - 1 := by norm_num
  have e2 : (4294967296 : Nat) = 2 ^ 32 := by norm_num
  rw [e, e2, Nat.testBit_mod_two_pow, Nat.testBit_shiftLeft, Nat.testBit_two_pow_sub_one]
  by_cases h1 : s ≤ i <;> by_cases h2 : i < 32 <;> simp [h1, h2]
  omega

theorem lt_two_pow_of_lt_mask (m i : Nat) (hm : m < 4294967296) (hi : 32 ≤ i) :
    m < 2 ^ i := by
  have e : (4294967296 : Nat) = 2 ^ 32 := by norm_num
  rw [e] at hm
  exact lt_of_lt_of_le hm (Nat.pow_le_pow_right (by norm_num) hi)

theorem mask_contiguous (m : Nat) (hm : m < 4294967296) :
    m &&& ((4294967295 ^^^ m) >>> 1) ≤ 0 ↔
      ∃ k, k ≤ 32 ∧ m = (4294967295 <<< (32 - k)) % 4294967296 := by
  constructor
  · intro h
    by_cases hz : m = 0
    · exact ⟨0, by omega, by subst hz; decide⟩
    · have hex : ∃ i, m.testBit i = true := Nat.ne_zero_implies_bit_true hz
      have hj := Nat.find_spec hex
      have hmin := fun i (hi : i < Nat.find hex) => Nat.find_min hex hi
      generalize Nat.find hex = j at hj hmin
      have hj32 : j < 32 := by
        by_contra hge
        rw [Nat.testBit_lt_two_pow (lt_two_pow_of_lt_mask m j hm (by omega))] at hj
        exact absurd hj (by simp)
      have hup : ∀ i, j ≤ i → i < 32 → m.testBit i = true := by
        intro i hji
        induction i, hji using Nat.le_induction with
        | base => intro _; exact hj
        | succ n hn ih =>
          intro hlt
          exact mask_closed_upward m h n hlt (ih (by omega))
      refine ⟨32 - j, by omega, ?_⟩
      apply Nat.eq_of_testBit_eq
      intro i
      rw [testBit_pfx_mask]
      have e32 : 32 - (32 - j) = j := by omega
      rw [e32]
      by_cases h1 : j ≤ i
      · by_cases h2 : i < 32
        · simp [h1, h2, hup i h1 h2]
        · simp [h2, Nat.testBit_lt_two_pow (lt_two_pow_of_lt_mask m i hm (by omega))]
      · have := hmin i (by omega)
        simp [h1, this]
  · rintro ⟨k, hk, rfl⟩
    interval_cases k <;> decide

/-! ## Dotted decimal round trip -/

set_option maxRecDepth 100000 in
theorem fmtByte_parse : ∀ b < 256, parseOctet (fmtByte b) = some b := by decide

set_option maxRecDepth 100000 in
theorem fmtByte_plain :
    ∀ b < 256, (fmtByte b).all (fun c => decide (c ≠ '.') && decide (c ≠ ':')) = true := by
  decide

theorem splitOnDot_plain (f : List Char) (h : ∀ c ∈ f, c ≠ '.') : splitOnDot f = [f] := by
  induction f with
  | nil => rfl
  | cons c cs ih =>
    have hc : c ≠ '.' := h c (List.mem_cons_self c cs)
    rw [splitOnDot, if_neg hc, ih (fun x hx => h x (List.mem_cons_of_mem c hx))]

theorem splitOnDot_append (f rest : List Char) (h : ∀ c ∈ f, c ≠ '.') :
    splitOnDot (f ++ '.' :: rest) = f :: splitOnDot rest := by
  induction f with
  | nil => simp [splitOnDot]
  | cons c cs ih =>
    have hc : c ≠ '.' := h c (List.mem_cons_self c cs)
    rw [List.cons_append, splitOnDot, if_neg hc,
      ih (fun x hx => h x (List.mem_cons_of_mem c hx))]

theorem firstSeparator_append (f rest : List Char)
    (h : ∀ c ∈ f, c ≠ '.' ∧ c ≠ ':') :
    firstSeparator (f ++ '.' :: rest) = some Separator.dot := by
  induction f with
  | nil => simp [firstSeparator]
  | cons c cs ih =>
    have hc := h c (List.mem_cons_self c cs)
    rw [List.cons_append, firstSeparator, if_neg hc.1, if_neg hc.2,
      ih (fun x hx => h x (List.mem_cons_of_mem c hx))]

theorem fmtByte_no_separator (b : Nat) (hb : b < 256) :
    ∀ c ∈ fmtByte b, c ≠ '.' ∧ c ≠ ':' := by
  intro c hc
  have h := List.all_eq_true.mp (fmtByte_plain b hb) c hc
  simpa using h

theorem parseIPv4_ipString4 (b0 b1 b2 b3 : Nat) (h0 : b0 < 256) (h1 : b1 < 256)
    (h2 : b2 < 256) (h3 : b3 < 256) :
    parseIPv4 (ipString4 b0 b1 b2 b3).toList = [b0, b1, b2, b3] := by
  have n0 := fun c hc => (fmtByte_no_separator b0 h0 c hc).1
  have n1 := fun c hc => (fmtByte_no_separator b1 h1 c hc).1
  have n2 := fun c hc => (fmtByte_no_separator b2 h2 c hc).1
  have n3 := fun c hc => (fmtByte_no_separator b3 h3 c hc).1
  show parseIPv4 (fmtByte b0 ++ '.' :: (fmtByte b1 ++ '.' :: (fmtByte b2 ++ '.' :: fmtByte b3)))
    = [b0, b1, b2, b3]
  unfold parseIPv4
  rw [splitOnDot_append _ _ n0, splitOnDot_append _ _ n1, splitOnDot_append _ _ n2,
    splitOnDot_plain _ n3]
  simp [fmtByte_parse b0 h0, fmtByte_parse b1 h1, fmtByte_parse b2 h2, fmtByte_parse b3 h3]

theorem ParseIP_ipString4 (parseIPv6 : String → List Nat) (b0 b1 b2 b3 : Nat)
    (h0 : b0 < 256) (h1 : b1 < 256) (h2 : b2 < 256) (h3 : b3 < 256) :
    ParseIP parseIPv6 (ipString4 b0 b1 b2 b3) = v4InV6Prefix ++ [b0, b1, b2, b3] := by
  have hs : firstSeparator (ipString4 b0 b1 b2 b3).toList = some Separator.dot :=
    firstSeparator_append _ _ (fmtByte_no_separator b0 h0)
  unfold ParseIP
  rw [hs, parseIPv4_ipString4 b0 b1 b2 b3 h0 h1 h2 h3]

theorem To4_v4InV6 (a b c d : Nat) : To4 (v4InV6Prefix ++ [a, b, c, d]) = [a, b, c, d] := by
  simp [To4, v4InV6Prefix]

theorem ipString4_has_dot (b0 b1 b2 b3 : Nat) :
    (ipString4 b0 b1 b2 b3).toList.contains '.' = true := by
  show (fmtByte b0 ++ '.' :: (fmtByte b1 ++ '.' :: (fmtByte b2 ++ '.' :: fmtByte b3))).contains
    '.' = true
  simp

theorem ipString4_roundtrip (parseIPv6 : String → List Nat) (b0 b1 b2 b3 : Nat)
    (h0 : b0 < 256) (h1 : b1 < 256) (h2 : b2 < 256) (h3 : b3 < 256)
    (order : ByteOrder) :
    IPv4Address.Valid parseIPv6 (ipString4 b0 b1 b2 b3) = true ∧
    IPv4Address.Uint32 parseIPv6 (ipString4 b0 b1 b2 b3) order
      = order.Uint32 [b0, b1, b2, b3] := by
  unfold IPv4Address.Valid IPv4Address.Uint32
  rw [ParseIP_ipString4 parseIPv6 b0 b1 b2 b3 h0 h1 h2 h3, To4_v4InV6, ipString4_has_dot]
  simp

theorem IPv4AddressUint32_roundtrip (parseIPv6 : String → List Nat) (n : Nat)
    (hn : n < 4294967296) (order : ByteOrder) :
    IPv4Address.Valid parseIPv6 (IPv4AddressUint32 n order) = true ∧
    IPv4Address.Uint32 parseIPv6 (IPv4AddressUint32 n order) order = n := by
  cases order
  · have h := ipString4_roundtrip parseIPv6 (n / 16777216 % 256) (n / 65536 % 256)
      (n / 256 % 256) (n % 256) (by omega) (by omega) (by omega) (by omega)
      ByteOrder.bigEndian
    refine ⟨h.1, ?_⟩
    show IPv4Address.Uint32 parseIPv6 (ipString4 _ _ _ _) _ = n
    rw [h.2]
    show _ * 16777216 + _ * 65536 + _ * 256 + _ = n
    omega
  · have h := ipString4_roundtrip parseIPv6 (n % 256) (n / 256 % 256) (n / 65536 % 256)
      (n / 16777216 % 256) (by omega) (by omega) (by omega) (by omega)
      ByteOrder.littleEndian
    refine ⟨h.1, ?_⟩
    show IPv4Address.Uint32 parseIPv6 (ipString4 _ _ _ _) _ = n
    rw [h.2]
    show _ * 16777216 + _ * 65536 + _ * 256 + _ = n
    omega

theorem pfx_shift (p : Nat) (hp : p ≤ 32) : (32 + 256 - p % 256) % 256 = 32 - p := by
  omega

theorem onesCount_pfx_mask (p : Nat) (hp : p ≤ 32) :
    OnesCount32 ((4294967295 <<< (32 - p)) % 4294967296) = p := by
  interval_cases p <;> decide

/-- C17: for every prefix `p` with `0 <= p <= 32` (and every IPv6 branch of the parser),
`IPv4NetmaskPrefix(p)` is the dotted form of `(0xFFFFFFFF << (32-p)) mod 2^32`, which is
`0.0.0.0` for `p = 0`; its `Prefix()` is `p` again, and it is a Valid netmask. -/
theorem netmask_of_pfx_roundtrip (parseIPv6 : String → List Nat) (p : Nat) (hp : p ≤ 32) :
    IPv4Netmask.Prefix parseIPv6 (IPv4NetmaskPrefix p) = p ∧
    IPv4Netmask.Valid parseIPv6 (IPv4NetmaskPrefix p) = true ∧
    IPv4Address.Uint32 parseIPv6 (IPv4NetmaskPrefix p) ByteOrder.bigEndian
      = (4294967295 <<< (32 - p)) % 4294967296 ∧
    IPv4NetmaskPrefix 0 = "0.0.0.0" := by
  have hlt : (4294967295 <<< (32 - p)) % 4294967296 < 4294967296 :=
    Nat.mod_lt _ (by norm_num)
  have hr := IPv4AddressUint32_roundtrip parseIPv6 _ hlt ByteOrder.bigEndian
  have hdef : IPv4NetmaskPrefix p
      = IPv4AddressUint32 ((4294967295 <<< (32 - p)) % 4294967296) ByteOrder.bigEndian := by
    unfold IPv4NetmaskPrefix
    rw [pfx_shift p hp]
  rw [hdef]
  refine ⟨?_, ?_, hr.2, by decide⟩
  · unfold IPv4Netmask.Prefix
    rw [hr.2]
    exact onesCount_pfx_mask p hp
  · unfold IPv4Netmask.Valid
    rw [hr.1, hr.2]
    simp only [Bool.not_true, Bool.false_eq_true, if_false, decide_eq_true_eq]
    exact (mask_contiguous _ hlt).mpr ⟨p, hp, rfl⟩

/-- Witness of C17: the prefix 24. -/
theorem netmask_of_pfx_roundtrip_witness :
    24 ≤ 32 ∧
    IPv4Netmask.Prefix noIPv6 (IPv4NetmaskPrefix 24) = 24 ∧
    IPv4Netmask.Valid noIPv6 (IPv4NetmaskPrefix 24) = true ∧
    IPv4Address.Uint32 noIPv6 (IPv4NetmaskPrefix 24) ByteOrder.bigEndian
      = (4294967295 <<< (32 - 24)) % 4294967296 ∧
    IPv4NetmaskPrefix 0 = "0.0.0.0" :=
  ⟨by decide, netmask_of_pfx_roundtrip noIPv6 24 (by decide)⟩

/-- C18, as stated, fails: the string `::ffff:102:304` is not a Valid IPv4 address (it
holds no dot), yet `net.ParseIP` reads it as the IPv4-mapped address `1.2.3.4`, `To4`
yields four bytes, and `Uint32` returns `0x01020304` instead of 0. -/
theorem uint32_of_invalid_address_counterexample :
    IPv4Address.Valid mappedOnlyIPv6 "::ffff:102:304" = false ∧
    IPv4Address.Uint32 mappedOnlyIPv6 "::ffff:102:304" ByteOrder.bigEndian = 16909060 := by
  constructor <;> decide

/-- C18, amended: for every 32-bit value `n` and each byte order,
`IPv4AddressUint32(n, order)` is a Valid IPv4 address and converts back to `n`; `Uint32`
returns 0 for every string `s` for which `net.ParseIP(s).To4()` is nil, and so for every
string that holds a dot and is not a Valid IPv4 address. -/
theorem address_uint32_roundtrip (parseIPv6 : String → List Nat) (n : Nat)
    (hn : n < 4294967296) (order : ByteOrder) :
    IPv4Address.Valid parseIPv6 (IPv4AddressUint32 n order) = true ∧
    IPv4Address.Uint32 parseIPv6 (IPv4AddressUint32 n order) order = n ∧
    (∀ s : String, To4 (ParseIP parseIPv6 s) = [] →
      IPv4Address.Uint32 parseIPv6 s order = 0) ∧
    (∀ s : String, s.toList.contains '.' = true →
      IPv4Address.Valid parseIPv6 s = false →
      IPv4Address.Uint32 parseIPv6 s order = 0) := by
  have hr := IPv4AddressUint32_roundtrip parseIPv6 n hn order
  have hnil : ∀ s : String, To4 (ParseIP parseIPv6 s) = [] →
      IPv4Address.Uint32 parseIPv6 s order = 0 := by
    intro s hs
    unfold IPv4Address.Uint32
    rw [hs]
    rfl
  refine ⟨hr.1, hr.2, hnil, ?_⟩
  intro s hdot hv
  apply hnil
  unfold IPv4Address.Valid at hv
  rw [hdot, Bool.true_and] at hv
  simpa using hv

/-- Witness of the amended C18: the value `0x01020304` in little-endian order, the
unparsable string `1.2.3`, and the same string as a string with a dot that is not
Valid. -/
theorem address_uint32_roundtrip_witness :
    16909060 < 4294967296 ∧
    IPv4Address.Valid noIPv6 (IPv4AddressUint32 16909060 ByteOrder.littleEndian) = true ∧
    IPv4Address.Uint32 noIPv6 (IPv4AddressUint32 16909060 ByteOrder.littleEndian)
      ByteOrder.littleEndian = 16909060 ∧
    To4 (ParseIP noIPv6 "1.2.3") = [] ∧
    "1.2.3".toList.contains '.' = true ∧
    IPv4Address.Valid noIPv6 "1.2.3" = false ∧
    IPv4Address.Uint32 noIPv6 "1.2.3" ByteOrder.littleEndian = 0 :=
  have h := address_uint32_roundtrip noIPv6 16909060 (by decide) ByteOrder.littleEndian
  ⟨by decide, h.1, h.2.1, by decide, by decide, by decide,
   h.2.2.2 "1.2.3" (by decide) (by decide)⟩

/-! ## D-Bus settings of a connection -/

theorem ipv4_DBus_no_psk (parseIPv6 : String → List Nat) (c : IPv4Config) :
    (c.DBus parseIPv6).any (fun e => e.1 == "psk") = false := by
  unfold IPv4Config.DBus
  simp only []
  split <;> simp

theorem ipv6_DBus_no_psk (parseIPv6 : String → List Nat) (c : IPv6Config) :
    (c.DBus parseIPv6).any (fun e => e.1 == "psk") = false := by
  unfold IPv6Config.DBus
  simp only []
  split <;> simp

theorem DBus_security_section (parseIPv6 : String → List Nat) (c : NetworkManagerConn) :
    lookupSection (c.DBus parseIPv6) "802-11-wireless-security"
      = if c.Type_ = "802-11-wireless" ∧ c.WiFiConfig.KeyManagement ≠ "" then
          some (if c.Managed then
              [("key-mgmt", DBusValue.str c.WiFiConfig.KeyManagement),
               ("psk", DBusValue.str c.WiFiConfig.PSK)]
            else [("key-mgmt", DBusValue.str c.WiFiConfig.KeyManagement)])
        else none := by
  unfold NetworkManagerConn.DBus lookupSection
  by_cases ht : c.Type_ = "802-11-wireless" <;>
    by_cases hk : c.WiFiConfig.KeyManagement = "" <;>
    cases hm : c.Managed <;> simp [ht, hk, List.find?]

/-- C14: the settings returned by `NetworkManagerConn.DBus` hold a `psk` entry if and
only if `Type` is `802-11-wireless`, `WiFiConfig.KeyManagement` is not empty and
`Managed` is true, and the entry then is the PSK in section `802-11-wireless-security`;
for a connection with `Managed = false`, replacing `WiFiConfig.PSK` by any other string
leaves the returned settings unchanged. -/
theorem psk_only_for_managed (parseIPv6 : String → List Nat) (c : NetworkManagerConn) :
    (hasEntry (c.DBus parseIPv6) "psk" = true ↔
      c.Type_ = "802-11-wireless" ∧ c.WiFiConfig.KeyManagement ≠ "" ∧ c.Managed = true) ∧
    lookupEntry (c.DBus parseIPv6) "802-11-wireless-security" "psk"
      = (if c.Type_ = "802-11-wireless" ∧ c.WiFiConfig.KeyManagement ≠ "" ∧
            c.Managed = true then
          some (DBusValue.str c.WiFiConfig.PSK)
         else none) ∧
    (∀ psk : String, c.Managed = false →
      NetworkManagerConn.DBus parseIPv6
          { c with WiFiConfig := { c.WiFiConfig with PSK := psk } }
        = c.DBus parseIPv6) := by
  refine ⟨?_, ?_, ?_⟩
  · have h4 := ipv4_DBus_no_psk parseIPv6 c.IPv4Config
    have h6 := ipv6_DBus_no_psk parseIPv6 c.IPv6Config
    unfold NetworkManagerConn.DBus hasEntry
    by_cases ht : c.Type_ = "802-11-wireless" <;>
      by_cases hk : c.WiFiConfig.KeyManagement = "" <;>
      by_cases hi : c.InterfaceName = "" <;>
      cases hm : c.Managed <;> simp [ht, hk, hi, h4, h6]
  · unfold lookupEntry
    rw [DBus_security_section]
    by_cases ht : c.Type_ = "802-11-wireless" <;>
      by_cases hk : c.WiFiConfig.KeyManagement = "" <;>
      cases hm : c.Managed <;> simp [ht, hk, List.find?]
  · intro psk hm
    unfold NetworkManagerConn.DBus
    simp [hm]

/-- Witness of C14: the unmanaged Wi-Fi connection with another pre-shared key. -/
theorem psk_only_for_managed_witness :
    unmanagedWiFi.Managed = false ∧
    NetworkManagerConn.DBus noIPv6
        { unmanagedWiFi with WiFiConfig := { unmanagedWiFi.WiFiConfig with PSK := "other" } }
      = unmanagedWiFi.DBus noIPv6 ∧
    lookupEntry (managedWiFi.DBus noIPv6) "802-11-wireless-security" "psk"
      = (if managedWiFi.Type_ = "802-11-wireless" ∧ managedWiFi.WiFiConfig.KeyManagement ≠ "" ∧
            managedWiFi.Managed = true then
          some (DBusValue.str managedWiFi.WiFiConfig.PSK)
         else none) :=
  ⟨rfl, (psk_only_for_managed noIPv6 unmanagedWiFi).2.2 "other" rfl,
   (psk_only_for_managed noIPv6 managedWiFi).2.1⟩

/-- C15, the failing input: `NetworkManagerConn.DBus` never returns nil.  The wired
connection `wiredConn` has the prefix `SimpleIoT:` neither in its ID nor in its
Description, and `DBus` still returns its settings, `connection` section included. -/
theorem dbus_never_nil (parseIPv6 : String → List Nat) (c : NetworkManagerConn) :
    (c.DBus parseIPv6).isSome = true ∧
    "SimpleIoT:".toList.isPrefixOf wiredConn.ID.toList = false ∧
    "SimpleIoT:".toList.isPrefixOf wiredConn.Description.toList = false ∧
    lookupEntry (wiredConn.DBus parseIPv6) "connection" "id"
      = some (DBusValue.str "Wired connection 1") := by
  refine ⟨?_, by decide, by decide, ?_⟩
  · unfold NetworkManagerConn.DBus
    simp only []
    split
    · split <;> rfl
    · rfl
  · simp [lookupEntry, lookupSection, NetworkManagerConn.DBus, wiredConn, List.find?]

/-- C13, the failing input: `managedWiFi` and `unmanagedWiFi` differ in `Managed` only, a
field that `Equal` skips, so `Equal` returns true although only the managed connection
exports a `psk` entry: the two D-Bus settings are not the same.  In the other direction
`wiredConn` and `wiredConnStaleSSID` are not `Equal` (their `WiFiConfig` differs) although
`DBus` returns identical settings for the two. -/
theorem equal_does_not_characterise_dbus (parseIPv6 : String → List Nat) :
    NetworkManagerConn.Equal parseIPv6 managedWiFi unmanagedWiFi = true ∧
    lookupEntry (managedWiFi.DBus parseIPv6) "802-11-wireless-security" "psk"
      = some (DBusValue.str "secret") ∧
    lookupEntry (unmanagedWiFi.DBus parseIPv6) "802-11-wireless-security" "psk" = none ∧
    ¬ sameSettings (managedWiFi.DBus parseIPv6) (unmanagedWiFi.DBus parseIPv6) ∧
    NetworkManagerConn.Equal parseIPv6 wiredConn wiredConnStaleSSID = false ∧
    wiredConn.DBus parseIPv6 = wiredConnStaleSSID.DBus parseIPv6 := by
  have h1 : lookupEntry (managedWiFi.DBus parseIPv6) "802-11-wireless-security" "psk"
      = some (DBusValue.str "secret") := by
    unfold lookupEntry
    rw [DBus_security_section]
    simp [managedWiFi, List.find?]
  have h2 : lookupEntry (unmanagedWiFi.DBus parseIPv6) "802-11-wireless-security" "psk"
      = none := by
    unfold lookupEntry
    rw [DBus_security_section]
    simp [unmanagedWiFi, managedWiFi, List.find?]
  refine ⟨?_, h1, h2, ?_, ?_, ?_⟩
  · simp [NetworkManagerConn.Equal, IPv4Config.Equal, IPv6Config.Equal, IPv4Config.Method,
      IPv6Config.Method, managedWiFi, unmanagedWiFi]
  · intro hs
    have := (hs.2 "802-11-wireless-security").2 "psk"
    rw [h1, h2] at this
    exact absurd this (by simp)
  · simp [NetworkManagerConn.Equal, wiredConn, wiredConnStaleSSID]
  · simp [NetworkManagerConn.DBus, wiredConn, wiredConnStaleSSID]

/-! ## File transfer -/

theorem progressCount_append (a b : List FileEvent) :
    progressCount (a ++ b) = progressCount a + progressCount b := by
  induction a with
  | nil => simp [progressCount]
  | cons e es ih =>
    cases e <;> simp [progressCount, ih]
    omega

theorem attemptDiscipline_append (st : Option Nat) (a b : List FileEvent) :
    attemptDiscipline st (a ++ b)
      = (attemptDiscipline st a).bind (fun s => attemptDiscipline s b) := by
  induction a generalizing st with
  | nil => simp [attemptDiscipline]
  | cons e es ih =>
    cases e with
    | log args => simp [attemptDiscipline, ih]
    | progress n =>
      cases st with
      | none => simp [attemptDiscipline, ih]
      | some k => simp [attemptDiscipline]
    | request s out reply =>
      cases st with
      | none => simp [attemptDiscipline]
      | some k =>
        by_cases hk : k < 3
        · simp [attemptDiscipline, hk, ih]
        · simp [attemptDiscipline, hk]

theorem requestsFor_append (env : FileEnv) (subject : String) (cs : List FileChunk)
    (a b : List FileEvent) (ha : requestsFor env subject cs a = true)
    (hb : requestsFor env subject (cs.drop (progressCount a)) b = true) :
    requestsFor env subject cs (a ++ b) = true := by
  induction a generalizing cs with
  | nil => simpa [progressCount] using hb
  | cons e es ih =>
    cases e with
    | log args =>
      simp only [List.cons_append, requestsFor, progressCount] at ha hb ⊢
      exact ih cs ha hb
    | progress n =>
      cases cs with
      | nil => simp [requestsFor] at ha
      | cons c cs =>
        simp only [List.cons_append, requestsFor, progressCount, List.drop_succ_cons] at ha hb ⊢
        exact ih cs ha hb
    | request s out reply =>
      cases cs with
      | nil => simp [requestsFor] at ha
      | cons c cs =>
        simp only [List.cons_append, requestsFor, progressCount, Bool.and_eq_true] at ha hb ⊢
        exact ⟨ha.1, ih (c :: cs) ha.2 hb⟩

theorem requestLoop_spec (env : FileEnv) (subject : String) (out : List Nat)
    (left retry : Nat) (tr : List FileEvent) (h : retry + left = 3) :
    ∃ evs, (requestLoop env subject out left retry tr).2 = tr ++ evs ∧
      progressCount evs = 0 ∧
      (∀ c cs, env.marshal c = Marshalled.bytes out →
        requestsFor env subject (c :: cs) evs = true) ∧
      attemptDiscipline (some retry) evs
        = some (if (requestLoop env subject out left retry tr).1 < 3 then none else some 3) ∧
      (requestLoop env subject out left retry tr).1 ≤ 3 := by
  induction left generalizing retry tr with
  | zero =>
    have hr : retry = 3 := by omega
    subst hr
    exact ⟨[], by simp [requestLoop], rfl, fun _ _ _ => rfl, by simp [requestLoop, attemptDiscipline],
      by simp [requestLoop]⟩
  | succ left ih =>
    have hlt : retry < 3 := by omega
    rw [requestLoop]
    cases hreq : env.request tr subject out with
    | failed err =>
      simp only []
      obtain ⟨evs, h1, h2, h3, h4, h5⟩ := ih (retry + 1)
        (tr ++ [FileEvent.request subject out (Reply.failed err),
                FileEvent.log ["Error sending file, retrying: ", toString retry, err]])
        (by omega)
      refine ⟨[FileEvent.request subject out (Reply.failed err),
                FileEvent.log ["Error sending file, retrying: ", toString retry, err]] ++ evs,
        ?_, ?_, ?_, ?_, h5⟩
      · rw [h1, List.append_assoc]
      · simp [progressCount, h2]
      · intro c cs hm
        simp [requestsFor, hm, h3 c cs hm]
      · simp [attemptDiscipline, hlt, replyOK, h4]
    | data msgS =>
      simp only []
      by_cases hok : msgS = "OK"
      · subst hok
        refine ⟨[FileEvent.request subject out (Reply.data "OK")], ?_, ?_, ?_, ?_, ?_⟩
        · simp
        · simp [progressCount]
        · intro c cs hm
          simp [requestsFor, hm]
        · simp [attemptDiscipline, hlt, replyOK]
        · simp; omega
      · have hne : (msgS != "OK") = true := by simpa using hok
        simp only [hne, if_true]
        obtain ⟨evs, h1, h2, h3, h4, h5⟩ := ih (retry + 1)
          (tr ++ [FileEvent.request subject out (Reply.data msgS),
                  FileEvent.log ["Error from device when sending file: ", toString retry,
                    msgS]])
          (by omega)
        refine ⟨[FileEvent.request subject out (Reply.data msgS),
                  FileEvent.log ["Error from device when sending file: ", toString retry,
                    msgS]] ++ evs,
          ?_, ?_, ?_, ?_, h5⟩
        · rw [h1, List.append_assoc]
        · simp [progressCount, h2]
        · intro c cs hm
          simp [requestsFor, hm, h3 c cs hm]
        · simp [attemptDiscipline, hlt, replyOK, hok, h4]

theorem sendChunk_spec (env : FileEnv) (subject : String) (chunk : FileChunk)
    (tr : List FileEvent) :
    ∃ evs, (sendChunk env subject chunk tr).2 = tr ++ evs ∧
      progressCount evs = 0 ∧
      (∀ cs, requestsFor env subject (chunk :: cs) evs = true) ∧
      ((∃ e, env.marshal chunk = Marshalled.failed e ∧
          (sendChunk env subject chunk tr).1 = some (SendError.marshal e) ∧ evs = []) ∨
       (∃ out, env.marshal chunk = Marshalled.bytes out ∧
          (((sendChunk env subject chunk tr).1 = none ∧
              attemptDiscipline (some 0) evs = some none) ∨
           ((sendChunk env subject chunk tr).1 = some SendError.sendFailed ∧
              attemptDiscipline (some 0) evs = some (some 3))))) := by
  unfold sendChunk
  cases hm : env.marshal chunk with
  | failed e =>
    exact ⟨[], by simp, rfl, fun _ => rfl, Or.inl ⟨e, rfl, rfl, rfl⟩⟩
  | bytes out =>
    obtain ⟨evs, h1, h2, h3, h4, h5⟩ := requestLoop_spec env subject out 3 0 tr (by omega)
    simp only []
    by_cases hr : (requestLoop env subject out 3 0 tr).1 ≥ 3
    · have hnot : ¬ (requestLoop env subject out 3 0 tr).1 < 3 := by omega
      rw [if_neg hnot] at h4
      rw [if_pos hr]
      exact ⟨evs, h1, h2, fun cs => h3 chunk cs hm, Or.inr ⟨out, rfl, Or.inr ⟨rfl, h4⟩⟩⟩
    · have hlt : (requestLoop env subject out 3 0 tr).1 < 3 := by omega
      rw [if_pos hlt] at h4
      rw [if_neg hr]
      exact ⟨evs, h1, h2, fun cs => h3 chunk cs hm, Or.inr ⟨out, rfl, Or.inl ⟨rfl, h4⟩⟩⟩

theorem SendContract_nil (env : FileEnv) (subject : String) :
    SendContract env subject [] none [] := by
  refine ⟨rfl, by simp [progressCount], by simp [progressCount], by simp [attemptDiscipline],
    ?_, by simp⟩
  intro e
  simp

theorem SendContract_marshal_failed (env : FileEnv) (subject : String) (c : FileChunk)
    (cs : List FileChunk) (e : String) (hm : env.marshal c = Marshalled.failed e) :
    SendContract env subject (c :: cs) (some (SendError.marshal e)) [] := by
  refine ⟨rfl, by simp [progressCount], by simp [progressCount], by simp [attemptDiscipline],
    ?_, by simp⟩
  intro e2
  simp only [progressCount, List.getElem?_cons_zero, Option.some.injEq, exists_eq_left', hm,
    Marshalled.failed.injEq, SendError.marshal.injEq]

theorem SendContract_exhausted (env : FileEnv) (subject : String) (c : FileChunk)
    (cs : List FileChunk) (out : List Nat) (evs : List FileEvent)
    (hm : env.marshal c = Marshalled.bytes out) (hp : progressCount evs = 0)
    (hr : requestsFor env subject (c :: cs) evs = true)
    (hd : attemptDiscipline (some 0) evs = some (some 3)) :
    SendContract env subject (c :: cs) (some SendError.sendFailed) evs := by
  refine ⟨hr, by simp [hp], by simp [hp], by simp [hd], ?_, ?_⟩
  · intro e
    simp [hp, hm]
  · intro _
    exact ⟨c, out, by simp [hp], hm⟩

theorem SendContract_step (env : FileEnv) (subject : String) (c : FileChunk)
    (cs : List FileChunk) (evs1 evs2 : List FileEvent) (n : Int)
    (res : Option SendError) (hp : progressCount evs1 = 0)
    (hr : requestsFor env subject (c :: cs) evs1 = true)
    (hd : attemptDiscipline (some 0) evs1 = some none)
    (hrest : SendContract env subject cs res evs2) :
    SendContract env subject (c :: cs) res (evs1 ++ FileEvent.progress n :: evs2) := by
  obtain ⟨r1, r2, r3, r4, r5, r6⟩ := hrest
  have hk : progressCount (evs1 ++ FileEvent.progress n :: evs2) = progressCount evs2 + 1 := by
    rw [progressCount_append, hp]
    simp [progressCount]
  refine ⟨?_, ?_, ?_, ?_, ?_, ?_⟩
  · apply requestsFor_append env subject (c :: cs) evs1 _ hr
    rw [hp]
    simpa [requestsFor] using r1
  · rw [hk]
    simp only [List.length_cons]
    omega
  · rw [hk, r3]
    simp only [List.length_cons]
    omega
  · rw [attemptDiscipline_append, hd]
    simpa [attemptDiscipline] using r4
  · intro e
    rw [hk, r5 e]
    simp
  · intro h
    rw [hk]
    simpa using r6 h

theorem sendLoop_contract (env : FileEnv) (subject name : String) (lastData : List Nat)
    (lastErr : ReadError) (reads : List (List Nat)) (seq bytesTx : Int)
    (tr : List FileEvent) :
    ∃ evs,
      (sendLoop env subject name lastData lastErr reads seq bytesTx tr).2 = tr ++ evs ∧
      SendContract env subject (chunksFrom name lastData lastErr reads seq)
        (sendLoop env subject name lastData lastErr reads seq bytesTx tr).1 evs := by
  induction reads generalizing seq bytesTx tr with
  | nil =>
    obtain ⟨evs, h1, h2, h3, h4⟩ :=
      sendChunk_spec env subject (mkChunk seq name lastData (some lastErr)) tr
    rw [sendLoop, chunksFrom]
    rcases h4 with ⟨e, hm, hres, hev⟩ | ⟨out, hm, ⟨hres, hd⟩ | ⟨hres, hd⟩⟩
    · refine ⟨evs, ?_, ?_⟩
      · rw [← h1]
        split <;> simp_all
      · have : (match sendChunk env subject (mkChunk seq name lastData (some lastErr)) tr with
            | (some e, tr1) => (some e, tr1)
            | (none, tr1) =>
              (none, tr1 ++ [FileEvent.progress (wrapInt64 (bytesTx + lastData.length))])).1
            = some (SendError.marshal e) := by
          split <;> simp_all
        rw [this, hev]
        exact SendContract_marshal_failed env subject _ [] e hm
    · refine ⟨evs ++ [FileEvent.progress (wrapInt64 (bytesTx + lastData.length))], ?_, ?_⟩
      · rw [← List.append_assoc, ← h1]
        split <;> simp_all
      · have : (match sendChunk env subject (mkChunk seq name lastData (some lastErr)) tr with
            | (some e, tr1) => (some e, tr1)
            | (none, tr1) =>
              (none, tr1 ++ [FileEvent.progress (wrapInt64 (bytesTx + lastData.length))])).1
            = none := by
          split <;> simp_all
        rw [this]
        exact SendContract_step env subject _ [] evs [] _ none h2 (h3 []) hd
          (SendContract_nil env subject)
    · refine ⟨evs, ?_, ?_⟩
      · rw [← h1]
        split <;> simp_all
      · have : (match sendChunk env subject (mkChunk seq name lastData (some lastErr)) tr with
            | (some e, tr1) => (some e, tr1)
            | (none, tr1) =>
              (none, tr1 ++ [FileEvent.progress (wrapInt64 (bytesTx + lastData.length))])).1
            = some SendError.sendFailed := by
          split <;> simp_all
        rw [this]
        exact SendContract_exhausted env subject _ [] out evs hm h2 (h3 []) hd
  | cons data rest ih =>
    obtain ⟨evs, h1, h2, h3, h4⟩ :=
      sendChunk_spec env subject (mkChunk seq name data none) tr
    rw [sendLoop, chunksFrom]
    cases hsc : sendChunk env subject (mkChunk seq name data none) tr with
    | mk res1 tr1 =>
      rw [hsc] at h1 h4
      simp only [] at h1 h4
      rcases h4 with ⟨e, hm, hres, hev⟩ | ⟨out, hm, ⟨hres, hd⟩ | ⟨hres, hd⟩⟩
      · subst hres
        subst hev
        exact ⟨[], by simpa using h1, SendContract_marshal_failed env subject _ _ e hm⟩
      · subst hres
        simp only []
        obtain ⟨evs2, g1, g2⟩ := ih (wrapInt32 (seq + 1)) (wrapInt64 (bytesTx + data.length))
          (tr1 ++ [FileEvent.progress (wrapInt64 (bytesTx + data.length))])
        refine ⟨evs ++ FileEvent.progress (wrapInt64 (bytesTx + data.length)) :: evs2, ?_, ?_⟩
        · rw [g1, h1]
          simp
        · exact SendContract_step env subject _ _ evs evs2 _ _ h2 (h3 _) hd g2
      · subst hres
        exact ⟨evs, h1, SendContract_exhausted env subject _ _ out evs hm h2 (h3 _) hd⟩

/-- C12: for every reader, encoder and device, with `cs` the chunks of the file and `k` the
number of progress callbacks in the trace of `SendFile`: every request goes to
`device.<id>.file` and carries the encoding of the chunk it belongs to; no chunk gets more
than 3 request attempts, none gets a request after a reply `OK`, and the callback is only
invoked after an `OK`; the call returns nil exactly when all chunks were acknowledged
(`k` is the number of chunks); it returns a non-nil error if and only if the encoding of
chunk `k` fails or all 3 attempts for chunk `k` failed, and then the trace ends there: no
later chunk is sent and the callback was invoked for the `k` chunks before it only. -/
theorem sendFile_bounded_retries (env : FileEnv) (deviceID : String) (reader : Reader)
    (name : String) :
    let res := (SendFile env deviceID reader name).1
    let evs := (SendFile env deviceID reader name).2
    let cs := chunks reader name
    requestsFor env ("device." ++ deviceID ++ ".file") cs evs = true ∧
    (∃ st, attemptDiscipline (some 0) evs = some st ∧
      (res = some SendError.sendFailed ↔ st = some 3)) ∧
    progressCount evs ≤ cs.length ∧
    (res = none ↔ progressCount evs = cs.length) ∧
    (res ≠ none ↔
      (∃ c e, cs[progressCount evs]? = some c ∧ env.marshal c = Marshalled.failed e) ∨
      attemptDiscipline (some 0) evs = some (some 3)) ∧
    (∀ e, res = some (SendError.marshal e) ↔
      ∃ c, cs[progressCount evs]? = some c ∧ env.marshal c = Marshalled.failed e) ∧
    (res = some SendError.sendFailed →
      ∃ c out, cs[progressCount evs]? = some c ∧ env.marshal c = Marshalled.bytes out) := by
  intro res evs cs
  obtain ⟨evs2, h1, c1, c2, c3, c4, c5, c6⟩ :=
    sendLoop_contract env ("device." ++ deviceID ++ ".file") name reader.lastData
      reader.lastErr reader.reads 0 0 []
  have he : evs = evs2 := by
    show (SendFile env deviceID reader name).2 = evs2
    rw [SendFile, h1]
    rfl
  have hres : (sendLoop env ("device." ++ deviceID ++ ".file") name reader.lastData
      reader.lastErr reader.reads 0 0 []).1 = res := rfl
  have hcs : chunksFrom name reader.lastData reader.lastErr reader.reads 0 = cs := rfl
  rw [hres] at c3 c4 c5 c6
  rw [hcs] at c1 c2 c3 c5 c6
  rw [← he] at c1 c2 c3 c4 c5 c6
  refine ⟨c1, ?_, c2, c3, ?_, c5, c6⟩
  · refine ⟨_, c4, ?_⟩
    by_cases hf : res = some SendError.sendFailed <;> simp [hf]
  · rw [c4]
    constructor
    · intro hne
      cases hr : res with
      | none => exact absurd hr hne
      | some err =>
        cases err with
        | marshal e =>
          obtain ⟨c, hc⟩ := (c5 e).mp hr
          exact Or.inl ⟨c, e, hc⟩
        | sendFailed => simp
    · rintro (⟨c, e, hc⟩ | hd)
      · rw [(c5 e).mpr ⟨c, hc⟩]
        simp
      · by_cases hf : res = some SendError.sendFailed
        · rw [hf]; simp
        · simp [hf] at hd

/-- Witness of C12: a device that answers `busy` to everything exhausts the 3 attempts of
the first chunk. -/
theorem sendFile_bounded_retries_witness :
    (SendFile busyDevice "dev" twoReads "f.bin").1 = some SendError.sendFailed ∧
    progressCount (SendFile busyDevice "dev" twoReads "f.bin").2 = 0 ∧
    ∃ c out,
      (chunks twoReads "f.bin")[progressCount (SendFile busyDevice "dev" twoReads "f.bin").2]?
        = some c ∧
      busyDevice.marshal c = Marshalled.bytes out :=
  have hres : (SendFile busyDevice "dev" twoReads "f.bin").1 = some SendError.sendFailed := by
    decide
  ⟨hres, by decide, (sendFile_bounded_retries busyDevice "dev" twoReads "f.bin").2.2.2.2.2.2 hres⟩

/-! ## The point store -/

theorem sameKey_iff (a b : StoredPoint) :
    sameKey a b = true ↔ a.Type_ = b.Type_ ∧ a.Key = b.Key := by
  simp [sameKey]

theorem sameKey_congr (p k : StoredPoint) (h : sameKey p k = true) (q : StoredPoint) :
    sameKey q p = sameKey q k := by
  have hk := (sameKey_iff p k).mp h
  unfold sameKey
  rw [hk.1, hk.2]

theorem mergePoint_filter_same (pts : List StoredPoint) (p k : StoredPoint)
    (h : sameKey p k = true) :
    (mergePoint pts p).1.filter (fun q => sameKey q k)
      = mergeKey (pts.filter (fun q => sameKey q k)) p := by
  induction pts with
  | nil => simp [mergePoint, mergeKey, h]
  | cons q qs ih =>
    rw [mergePoint]
    by_cases hq : sameKey q p = true
    · have hqk : sameKey q k = true := by rw [← sameKey_congr p k h q]; exact hq
      by_cases ht : q.Time < p.Time
      · simp [hq, ht, hqk, h, mergeKey, List.filter_cons]
      · simp [hq, ht, hqk, mergeKey, List.filter_cons]
    · have hqk : sameKey q k = false := by
        rw [← sameKey_congr p k h q]
        simpa using hq
      simp only [hq, Bool.false_eq_true, if_false, List.filter_cons, hqk]
      exact ih

theorem mergePoint_filter_other (pts : List StoredPoint) (p k : StoredPoint)
    (h : sameKey p k = false) :
    (mergePoint pts p).1.filter (fun q => sameKey q k)
      = pts.filter (fun q => sameKey q k) := by
  induction pts with
  | nil => simp [mergePoint, h]
  | cons q qs ih =>
    rw [mergePoint]
    by_cases hq : sameKey q p = true
    · have hqk : sameKey q k = false := by
        have hq2 := (sameKey_iff q p).mp hq
        unfold sameKey at h ⊢
        rw [hq2.1, hq2.2]
        exact h
      by_cases ht : q.Time < p.Time
      · simp [hq, ht, hqk, h, List.filter_cons]
      · simp [hq, ht, hqk, List.filter_cons]
    · simp only [hq, Bool.false_eq_true, if_false, List.filter_cons]
      rw [ih]

theorem mergePoints_filter (pts batch : List StoredPoint) (k : StoredPoint) :
    (mergePoints pts batch).1.filter (fun q => sameKey q k)
      = (batch.filter (fun q => sameKey q k)).foldl mergeKey
          (pts.filter (fun q => sameKey q k)) := by
  induction batch generalizing pts with
  | nil => simp [mergePoints]
  | cons p ps ih =>
    rw [mergePoints]
    simp only []
    rw [ih]
    by_cases hp : sameKey p k = true
    · simp [List.filter_cons, hp, mergePoint_filter_same pts p k hp]
    · have hp2 : sameKey p k = false := by simpa using hp
      simp [List.filter_cons, hp2, mergePoint_filter_other pts p k hp2]

theorem mergePoint_stale (pts : List StoredPoint) (p q : StoredPoint)
    (rest : List StoredPoint) (hf : pts.filter (fun x => sameKey x p) = q :: rest)
    (ht : p.Time ≤ q.Time) : mergePoint pts p = (pts, false) := by
  induction pts with
  | nil => simp at hf
  | cons x xs ih =>
    rw [mergePoint]
    by_cases hx : sameKey x p = true
    · simp only [List.filter_cons, hx, if_true, List.cons.injEq] at hf
      have hnot : ¬ x.Time < p.Time := by rw [hf.1]; omega
      simp [hx, hnot]
    · have hx2 : sameKey x p = false := by simpa using hx
      simp only [List.filter_cons, hx2, Bool.false_eq_true, if_false] at hf
      simp only [hx2, Bool.false_eq_true, if_false]
      rw [ih hf]

theorem getNodes_nodePoints_filter (s : PointStore) (ownerID : String)
    (batch : List StoredPoint) (k x : StoredPoint)
    (h : (batch.filter (fun q => sameKey q k)).foldl mergeKey
          (((s ownerID).getD []).filter (fun q => sameKey q k)) = [x]) :
    ∃ snap, getNodes (nodePoints s ownerID batch).1 ownerID = some snap ∧
      snap.filter (fun q => sameKey q k) = [x] := by
  refine ⟨List.insertionSort (fun a b => keyLE a b = true)
    (mergePoints ((s ownerID).getD []) batch).1, ?_, ?_⟩
  · simp [getNodes, nodePoints]
  · have hperm := (List.perm_insertionSort (fun a b => keyLE a b = true)
      (mergePoints ((s ownerID).getD []) batch).1).filter (fun q => sameKey q k)
    rw [mergePoints_filter, h] at hperm
    exact List.perm_singleton.mp hperm

theorem nodePoints_twice (s : PointStore) (ownerID : String) (b1 : List StoredPoint)
    (k : StoredPoint) :
    (((nodePoints s ownerID b1).1 ownerID).getD []).filter (fun q => sameKey q k)
      = (b1.filter (fun q => sameKey q k)).foldl mergeKey
          (((s ownerID).getD []).filter (fun q => sameKey q k)) := by
  simp [nodePoints, mergePoints_filter]

/-- C11 (against the store modelled from the specification): for every owner and every
two points `p1`, `p2` with the same `(Type, Key)` and times `T1 < T2`, written to a store
that holds for that key nothing or one point older than `T2`: after writing the newer
first and then the older, the older first and then the newer, or a batch that holds both
in either order among points of other keys, `getNodes` returns exactly one point for that
key, the `T2` point; and a point that is not newer than the single stored point of its
key leaves the store as it was and is not reported as applied. -/
theorem monotonic_merge (s : PointStore) (ownerID : String) (p1 p2 : StoredPoint)
    (hkey : sameKey p1 p2 = true) (htime : p1.Time < p2.Time)
    (hstored : ((s ownerID).getD []).filter (fun q => sameKey q p2) = [] ∨
      ∃ q0, ((s ownerID).getD []).filter (fun q => sameKey q p2) = [q0] ∧
        q0.Time < p2.Time) :
    (∃ snap, getNodes (nodePoints (nodePoints s ownerID [p2]).1 ownerID [p1]).1 ownerID
        = some snap ∧ snap.filter (fun q => sameKey q p2) = [p2]) ∧
    (∃ snap, getNodes (nodePoints (nodePoints s ownerID [p1]).1 ownerID [p2]).1 ownerID
        = some snap ∧ snap.filter (fun q => sameKey q p2) = [p2]) ∧
    (∀ batch : List StoredPoint,
      (batch.filter (fun q => sameKey q p2) = [p1, p2] ∨
        batch.filter (fun q => sameKey q p2) = [p2, p1]) →
      ∃ snap, getNodes (nodePoints s ownerID batch).1 ownerID = some snap ∧
        snap.filter (fun q => sameKey q p2) = [p2]) ∧
    (∀ (pts : List StoredPoint) (q p : StoredPoint), s ownerID = some pts →
      pts.filter (fun x => sameKey x p) = [q] → p.Time ≤ q.Time →
      (nodePoints s ownerID [p]).2 = [] ∧
      ∀ o, (nodePoints s ownerID [p]).1 o = s o) := by
  have hp2 : sameKey p2 p2 = true := by simp [sameKey]
  have hnot : ¬ p2.Time < p1.Time := by omega
  refine ⟨?_, ?_, ?_, ?_⟩
  · apply getNodes_nodePoints_filter
    rw [nodePoints_twice]
    rcases hstored with h0 | ⟨q0, h0, hq0⟩ <;>
      simp [List.filter_cons, hkey, hp2, h0, mergeKey, hnot, *]
  · apply getNodes_nodePoints_filter
    rw [nodePoints_twice]
    rcases hstored with h0 | ⟨q0, h0, hq0⟩
    · simp [List.filter_cons, hkey, hp2, h0, mergeKey, htime]
    · by_cases h1 : q0.Time < p1.Time <;>
        simp [List.filter_cons, hkey, hp2, h0, mergeKey, htime, hq0, h1]
  · intro batch hb
    apply getNodes_nodePoints_filter
    rcases hb with hb | hb <;> rw [hb]
    · rcases hstored with h0 | ⟨q0, h0, hq0⟩
      · simp [h0, mergeKey, htime]
      · by_cases h1 : q0.Time < p1.Time <;> simp [h0, mergeKey, htime, hq0, h1]
    · rcases hstored with h0 | ⟨q0, h0, hq0⟩ <;> simp [h0, mergeKey, hnot, *]
  · intro pts q p hs hf ht
    have hm := mergePoint_stale pts p q [] hf ht
    constructor
    · simp [nodePoints, mergePoints, hs, hm]
    · intro o
      by_cases ho : o = ownerID
      · subst ho
        simp [nodePoints, mergePoints, hs, hm]
      · simp [nodePoints, ho]

theorem store_after_newer :
    (nodePoints emptyStore "root" [newerValue]).1 "root" = some [newerValue] := by
  simp [nodePoints, mergePoints, mergePoint, emptyStore]

/-- Witness of C11: the points `olderValue` (time 100) and `newerValue` (time 200) written
to the root owner of an empty store, one after the other or in a batch with a description
point; and `olderValue` written to the store that already holds `newerValue`. -/
theorem monotonic_merge_witness :
    sameKey olderValue newerValue = true ∧
    olderValue.Time < newerValue.Time ∧
    ((emptyStore "root").getD []).filter (fun q => sameKey q newerValue) = [] ∧
    (∃ snap,
      getNodes (nodePoints (nodePoints emptyStore "root" [newerValue]).1 "root"
        [olderValue]).1 "root" = some snap ∧
      snap.filter (fun q => sameKey q newerValue) = [newerValue]) ∧
    (∃ snap,
      getNodes (nodePoints emptyStore "root" [olderValue, descriptionPoint, newerValue]).1
        "root" = some snap ∧
      snap.filter (fun q => sameKey q newerValue) = [newerValue]) ∧
    ((nodePoints (nodePoints emptyStore "root" [newerValue]).1 "root" [olderValue]).2 = [] ∧
      ∀ o, (nodePoints (nodePoints emptyStore "root" [newerValue]).1 "root" [olderValue]).1 o
        = (nodePoints emptyStore "root" [newerValue]).1 o) :=
  have hkey : sameKey olderValue newerValue = true := by decide
  have htime : olderValue.Time < newerValue.Time := by decide
  have hstored : ((emptyStore "root").getD []).filter (fun q => sameKey q newerValue) = [] :=
    rfl
  have h := monotonic_merge emptyStore "root" olderValue newerValue hkey htime
    (Or.inl hstored)
  have h2 := monotonic_merge (nodePoints emptyStore "root" [newerValue]).1 "root"
    olderValue { newerValue with Time := 300 } (by decide) (by decide)
    (Or.inr ⟨newerValue, by rw [store_after_newer]; decide, by decide⟩)
  ⟨hkey, htime, hstored, h.1,
   h.2.2.1 [olderValue, descriptionPoint, newerValue] (Or.inl (by decide)),
   h2.2.2.2 [newerValue] newerValue olderValue store_after_newer (by decide) (by decide)⟩

end SimpleIot
